import Mathlib

/-!
Verification of the transaction classification and aggregation pipeline of the
finance repository. The Python sources under src/ are embedded shallowly:
dataframes become lists of records, pandas column operations become list
operations, monetary amounts become rationals, and fallible operations return
Except. Each claim about the specification is settled by a theorem below.
-/

set_option maxHeartbeats 2000000
set_option maxRecDepth 10000

namespace Finance

/-! ## Generic list helpers modelling pandas primitives -/

/-- Keep-first deduplication with an accumulator of already-seen values.
Models pandas drop_duplicates and Series.unique, which keep the first
occurrence of each value and preserve order. -/
def dedupFirstAux {α : Type} [DecidableEq α] (seen : List α) : List α → List α
  | [] => []
  | a :: t => if a ∈ seen then dedupFirstAux seen t else a :: dedupFirstAux (a :: seen) t

/-- Keep-first deduplication of a list. -/
def dedupFirst {α : Type} [DecidableEq α] (l : List α) : List α := dedupFirstAux [] l

/-- Boolean strict lexicographic order on character lists by code point; this
is the order Python string comparison (and hence pandas sort_values on a
string column) uses. -/
def lexLt : List Char → List Char → Bool
  | _, [] => false
  | [], _ :: _ => true
  | a :: as, b :: bs => decide (a.toNat < b.toNat) || (decide (a.toNat = b.toNat) && lexLt as bs)

/-- Boolean lexicographic order-or-equal on character lists by code point. -/
def lexLe : List Char → List Char → Bool
  | [], _ => true
  | _ :: _, [] => false
  | a :: as, b :: bs => decide (a.toNat < b.toNat) || (decide (a.toNat = b.toNat) && lexLe as bs)

/-- Strict lexicographic comparison of strings, as Python compares year_month
keys such as "2024-01". -/
def strLt (a b : String) : Bool := lexLt a.data b.data

/-- Lexicographic order-or-equal comparison of strings. -/
def strLe (a b : String) : Bool := lexLe a.data b.data

/-! ## Description normalizer (src/etl/layers/staging.py, _normalize_description) -/

/-- Whitespace test for the regex character class backslash-s, restricted to
its six ASCII members (space, tab, newline, vertical tab, form feed, carriage
return); transaction descriptions contain no other whitespace code points. -/
def isWs (c : Char) : Bool :=
  decide (c = ' ') || decide (c = '\t') || decide (c = '\n') ||
  decide (c = '\x0b') || decide (c = '\x0c') || decide (c = '\r')

/-- Replace every maximal run of whitespace characters by a single space.
Models str.replace with the regex pattern backslash-s-plus and replacement
a single space, as applied to the description column. -/
def collapseWs : List Char → List Char
  | [] => []
  | [c] => if isWs c then [' '] else [c]
  | a :: b :: t =>
    if isWs a && isWs b then collapseWs (b :: t)
    else (if isWs a then ' ' else a) :: collapseWs (b :: t)

/-- Remove leading and trailing whitespace; models str.strip. -/
def stripWs (l : List Char) : List Char :=
  ((l.dropWhile isWs).reverse.dropWhile isWs).reverse

/-- Character-list core of the description normalizer: uppercase, collapse
whitespace runs to single spaces, trim. Char.toUpper coincides with the
Python str.upper on the ASCII characters appearing in transaction data. -/
def normalizeChars (l : List Char) : List Char :=
  stripWs (collapseWs (l.map Char.toUpper))

/-- The description normalizer from src/etl/layers/staging.py lines 6-18,
applied to a single description value of the dataframe column. -/
def _normalize_description (s : String) : String :=
  String.mk (normalizeChars s.data)

/-! ## Category classifiers (src/etl/layers/staging.py) -/

/-- Predicate forms appearing in the two classification rule chains: exact
equality of the whole description, or containment of any pattern in a list.
A single containment test is the one-element list case. -/
inductive Pred where
  | eq (pat : String)
  | anyContains (pats : List String)

/-- Boolean substring containment: pat occurs contiguously in the list. -/
def infixB (pat : List Char) : List Char → Bool
  | [] => pat.isEmpty
  | c :: t => pat.isPrefixOf (c :: t) || infixB pat t

/-- Boolean substring containment on strings; models the Python membership
test of pattern in description. -/
def containsStr (pat s : String) : Bool := infixB pat.data s.data

/-- Evaluate a rule predicate on a normalized description. -/
def Pred.eval (p : Pred) (description : String) : Bool :=
  match p with
  | .eq pat => decide (description = pat)
  | .anyContains pats => pats.any (fun pat => containsStr pat description)

/-- First-match interpretation of an ordered rule list with default category
OTHER: the shape of the if/elif chains of both categorizers. -/
def firstMatch (rules : List (Pred × String)) (d : String) : String :=
  match rules with
  | [] => "OTHER"
  | (p, c) :: rest => if p.eval d then c else firstMatch rest d

/-- Ordered rule list of _categorize_individual_bank_transaction
(src/etl/layers/staging.py lines 39-99), one entry per if/elif branch, in
source order. -/
def bankRules : List (Pred × String) :=
  [ (.anyContains
      [ "CLEARCOVER INC PAYROLL"
      , "FEDEX DATAWORKS DIR DEP"
      , "ECONOMIC CONSULT PAYROLL"
      , "EMPLOYMT BENEFIT UI BENEFIT PPD" ], "SALARY")
  , (.eq "INTEREST PAYMENT", "ACCOUNT_INTEREST")
  , (.anyContains ["VERIZON WIRELESS PAYMENTS"], "CELL_PHONE_BILL")
  , (.anyContains ["VANGUARD BUY INVESTMENT"], "TRANSFER_TO_BROKERAGE")
  , (.anyContains ["VANGUARD SELL INVESTMENT", "APA TREAS 310 MISC PAY PPD"], "TRANSFER_FROM_BROKERAGE")
  , (.anyContains ["VENMO PAYMENT"], "VENMO_PAYMENT")
  , (.anyContains ["VENMO CASHOUT"], "VENMO_CASHOUT")
  , (.anyContains ["PINNACLE COA"], "HOA_PAYMENT")
  , (.anyContains ["CHASE CREDIT CRD AUTOPAY", "PAYMENT TO CHASE CARD"], "CREDIT_CARD_PAYMENT")
  , (.anyContains ["ONPOINT COMMUNIT RE PAYMENT", "ONPOINT COMM CU MTG PYMTS"], "MORTGAGE_PAYMENT")
  , (.anyContains
      [ "ONLINE TRANSFER TO SAV"
      , "ONLINE TRANSFER TO CHK"
      , "ONLINE TRANSFER FROM SAV"
      , "ONLINE TRANSFER FROM CHK" ], "TRANSFER_BETWEEN_CHASE_ACCOUNTS")
  , (.anyContains ["DEPOSIT ID NUMBER", "REMOTE ONLINE DEPOSIT"], "CASH_DEPOSIT")
  , (.eq "WITHDRAWAL 07/14", "CASH_WITHDRAWL_FOR_WEDDING")
  , (.anyContains ["WITHDRAWAL"], "CASH_WITHDRAWL")
  , (.anyContains ["ALEX ELISE"], "WEDDING_PHOTOGRAPHER")
  , (.anyContains ["WEX HEALTH PREMIUMS 28670940 WEB ID"], "COBRA_PAYMENTS")
  , (.anyContains ["OR REVENUE DEPT ORSTTAXRFD", "IRS TREAS 310 TAX REF"], "TAX_REFUND")
  , (.anyContains ["CHECK # 1976 PASSPORTSERVICES PAYMENT ARC ID"], "PASSPORT_RENEWAL")
  , (.anyContains ["WESTFIELD BANK ACCTVERIFY", "WESTBK CK WEBXFR P2P JENNA CARLSON"], "JENNA_WEDDING_ACCT_TRANSFERS")
  ]

/-- Ordered rule list of _categorize_individual_credit_card_transaction
(src/etl/layers/staging.py lines 110-460), one entry per if/elif branch, in
source order. The pattern MUSIC MILLENNIUMARROW FILMS reproduces the
adjacent string literal concatenation present in the Python physical_media
list, where a comma is missing between two entries. Apostrophes are written
with the escape x27. -/
def creditCardRules : List (Pred × String) :=
  [ (.anyContains
      [ "PAYMENT THANK YOU-MOBILE"
      , "AUTOMATIC PAYMENT - THANK"
      , "PAYMENT THANK YOU - WEB" ], "CREDIT_CARD_PAYMENT")
  , (.anyContains ["SQ *OVATION COFFEE"], "OVATION")
  , (.anyContains
      [ "SQ *COFFEE TIME"
      , "CAFFE UMBRIA PORTLAND"
      , "SQ *SISTERS COFFEE COMPAN"
      , "TST*CAFFE UMBRIA PORTLAN"
      , "GOOD COFFEE" ], "OTHER_COFFEE_SHOPS")
  , (.anyContains
      [ "CHIPOTLE ONLINE"
      , "TST*PIZZICATO - PEARL"
      , "TST* PIZZICATO - PEARL"
      , "SQ *LOVEJOY BAKERS"
      , "CHIPOTLE MEX GR ONLINE"
      , "CHIPOTLE 1358"
      , "TST* Pizzicato - Pearl" ], "EATING_OUT_NBHD_LUNCH")
  , (.anyContains ["DOMINO"], "DOMINOS")
  , (.anyContains
      [ "HAWTHORNE THEATER"
      , "TST*REVOLUTION HALL"
      , "TST* MCMENAMINS - CRYSTAL"
      , "CASCADES AMPHITHEATRE"
      , "SEATGEEK TICKETS"
      , "AXS.COMFESTIVAL GV R"
      , "TM *KAYTRANADA X JUSTI"
      , "MCMENAMINS CONCERTS"
      , "CASCADE TICKETS"
      , "REVOLUTION HALL"
      , "TCKTWEB*GOATWHOREVITRI"
      , "PP*GATES TO HELL"
      , "SQ *VITRIOL" ], "CONCERTS")
  , (.anyContains
      [ "PAYMASTER LOUNGE"
      , "TST* JERRY\x27S TAVERN"
      , "JOES CELLAR"
      , "JOE\x27S CELLAR"
      , "SPO*THEFIELDSBAR&amp;GRILL"
      , "THE FIELDS BAR &AMP; GRILL"
      , "CARLITAS"
      , "THEFIELDSBAR" ], "NBHD_BARS")
  , (.anyContains ["LYFT", "UBER"], "RIDESHARE")
  , (.anyContains
      [ "SAFEWAY #2790"
      , "NEW SEASONS MARKET"
      , "WHOLEFDS PRT 10148"
      , "FRED-MEYER #0360"
      , "ZUPAN\x27S MARKET"
      , "COSTCO WHSE #0111"
      , "ALBERTSONS #3531"
      , "WHOLEFDS BRD 10266"
      , "WHOLE FOODS PRT 10148"
      , "UWAJIMAYA"
      , "TRADER JOE S #146"
      , "THE MEATING PLACE"
      , "WORLD FOODS"
      , "COSTCO WHSE #0780"
      , "CVS/PHARMACY #11282" ], "GROCERIES")
  , (.anyContains ["LIQUOR STORE", "ROLLING RIVER SPIRITS"], "LIQUOR_STORE")
  , (.eq "PORTLAND GENERAL ELECTRIC", "PGE")
  , (.anyContains ["LA FIT"], "GYM_MEMBERSHIP")
  , (.anyContains ["SPOTIFY"], "SPOTIFY_MEMBERSHIP")
  , (.anyContains ["COMCAST"], "COMCAST")
  , (.anyContains ["SQ *MICHELLE THRASHER", "SQ *SLABTOWN BARBERSHOP"], "HAIRCUT")
  , (.eq "POWELL\x27S BURNSIDE", "POWELLS")
  , (.anyContains
      [ "REGAL CINEMAS INC"
      , "CINEMA 21"
      , "FOX TOWER STM 10"
      , "HOLLYWOOD THEATRE"
      , "LIVING ROOM THEATERS"
      , "REGAL BRIDGEPORT  0652" ], "MOVIES")
  , (.anyContains
      [ "BLACK BUTTE RANCH (1)"
      , "ZOLA.COM*REGISTRY"
      , "BLACK BUTTE RANCH FOOD"
      , "IN *THE BOB LLC"
      , "FORYOURPARTY"
      , "SISTERS SALOON &AMP; RANCH"
      , "PROPER CLOTH"
      , "MORJAS"
      , "EUROPEAN MASTER TAILOR" ], "WEDDING")
  , (.anyContains
      [ "SQ *SHAKE SHACK"
      , "MCDONALD\x27S"
      , "BURGERVILLE"
      , "JACK IN THE BOX 7160" ], "FAST_FOOD")
  , (.anyContains
      [ "SQ *GASTRO MANIA"
      , "JOJO PEARL"
      , "TST* WILD CHILD PIZZA - F"
      , "MOMO YAMA"
      , "TST* SIZZLE PIE - WEST"
      , "TST* MISSISSIPPI STUDIOS"
      , "TST* 10 BARREL BREWING -"
      , "TST* SCOTTIE\x27S PIZZA PARL"
      , "TST* BREAKSIDE BREWERY -"
      , "TST* 10 BARREL PORTLAND N"
      , "TST* QDS"
      , "TST* SILVER HARBOR BREWIN"
      , "TST*RIVER PIG - PORTLAND"
      , "YAMA SUSHI AND SAKE BAR"
      , "BANNINGS RESTAURANT &amp; PIE"
      , "TST* GARDEN TAVERN"
      , "TST* FIRE ON THE MOUNTAIN"
      , "THE TRIPLE LINDY"
      , "SQ *SCOTTIE\x27S PIZZA PARLO"
      , "SQ *RANCH PIZZA SOUTHEAST "
      , "PROST TAVERN PORTLAND"
      , "RINGSIDE STEAK HOUSE WEST"
      , "SQ *GROUND KONTROL CLASSI"
      , "SQ *RANCH PIZZA SOUTHEAST"
      , "SQ *BAERLIC SOUTHEAST"
      , "LOYAL LEGION"
      , "MARATHON TAVERNA"
      , "OX"
      , "LUCKY LABRADOR BEER HALL"
      , "K-TOWN KOREAN BBQ"
      , "PORTLAND CITY GRILL-PO"
      , "Hale Pele"
      , "SQ *UPRIGHT BREWING"
      , "SQ *FREELAND SPIRITS"
      , "SQ *JOHNS MARKETPLACE"
      , "9TH AVE MINI MART"
      , "ORGEATWORKS"
      , "AP MARKET"
      , "DIVISION FOOD MART PDX"
      , "ALBERTA STREET MARKET"
      , "SQ *UP NORTH SURF CLUB"
      , "RAYS FOOD PLACE #45"
      , "50TH MARKET "
      , "GROUND KONTROL CLASSIC AR"
      , "KINGPINS - BEAVERTON - BO"
      , "BANNINGS RESTAURANT"
      , "RANCH PIZZA" ], "EATING_OUT")
  , (.anyContains
      [ "NORDSTROM"
      , "FJAELLRAEVEN"
      , "ON INC"
      , "TOMMY BAHAMA 613"
      , "WARBY PARKER"
      , "BONOBOS"
      , "VINTAGE SPORTS FASHION"
      , "SP WADE AND WILLIAMS"
      , "SP ANDAFTERTHAT"
      , "NORDSTROM #0025" ], "CLOTHES")
  , (.anyContains ["ARSENAL"], "ARSENAL")
  , (.anyContains
      [ "EVERYDAY MUSIC"
      , "CRITERION.COM"
      , "BARNES&AMP;NOBLE PAPERSOURCE"
      , "BARNES &AMP; NOBLE 2371"
      , "MUSIC MILLENNIUMARROW FILMS" ], "PHYSICAL_MEDIA")
  , (.eq "APPLE.COM/BILL", "APPLE_CLOUD_STORAGE")
  , (.anyContains
      [ "WARWICK ALLERTON HOTEL"
      , "HOOD RIVER HOTEL"
      , "AIRBNB * HMPSDMXX99"
      , "COURTYARD BY MARRIOTT"
      , "MARRIOTT SN FRAN MARQU"
      , "BEST WESTERN PONDEROSA"
      , "HILTON" ], "TRAVEL_LODGING")
  , (.anyContains ["ALASKA AIR", "UNITED ", "AMERICAN AIR"], "FLIGHTS")
  , (.anyContains ["PARKING"], "PARKING")
  , (.anyContains ["MODA CENTER"], "MODA_CENTER")
  , (.eq "ROKU FOR WARNERMEDIA GLOB", "HBO_SUBSCRIPTION")
  , (.anyContains ["PORTLAND INDOOR SOCCE"], "INDOOR_SOCCER")
  , (.anyContains
      [ "PENDLETON"
      , "LULULEMON BRIDGEPORT"
      , "HONEYFUND.COMGIFTCARDS"
      , "SP KIRIKO"
      , "SP BABYLIST"
      , "SP WWW.POSHBABY.COM"
      , "SQ *VIK ROASTERS"
      , "SP ECRU MODERN STATI"
      , "LS OBLATIONPAPERS.COM" ], "GIFTS")
  , (.anyContains
      [ "PEARL HARDWARE"
      , "CRATE &AMP; BARREL #454"
      , "RESTORATION HARDWARE"
      , "THE HOME DEPOT 4002"
      , "WILLIAMS-SONOMA 6324"
      , "KITCHEN KABOODLE" ], "HOME_IMPROVEMENT")
  , (.anyContains ["GORGE PERFORMANCE", "SP TRAVELERSURFCLUB"], "SURFING")
  , (.anyContains ["XBOX", "PLAYSTATION"], "VIDEO_GAMES")
  , (.anyContains ["WILLAMETTE DRY"], "DRY_CLEANING")
  , (.anyContains ["PRIME VIDEO", "GOOGLE *TV"], "VOD_AMAZON")
  , (.anyContains ["GEICO"], "CAR_INSURANCE")
  , (.anyContains ["LES SCHWAB TIRES #0243", "ODOT DMV2U", "DEQ VIP DEQ TOO"], "CAR_MAINTENANCE")
  , (.anyContains
      [ "DNH*DOMAINS#3405924658"
      , "GOOGLE *Domains"
      , "AMAZON WEB SERVICES"
      , "DIGITALOCEAN.COM" ], "HOSTING_SOFTWARE_PROJECTS")
  , (.anyContains ["CLAUDE.AI SUBSCRIPTION", "CHATGPT SUBSCRIPTION", "OPENAI"], "AI_SUBSCRIPTION")
  , (.anyContains ["AMAZON PRIME"], "AMAZON_PRIME")
  , (.anyContains ["AMAZON", "AMZN"], "AMAZON_PURCHASE")
  , (.anyContains ["CHESS.COM"], "CHESS_SUBSCRIPTION")
  , (.anyContains ["TCGPLAYER", "MAKEPLAYINGCARDS"], "MTG")
  , (.eq "ROKU FOR PEACOCK TV LLC", "PEACOCK_SUBSCRIPTION")
  , (.anyContains ["GOOGLE *PARAMOUNT", "CBS MOBILE APP"], "PARAMOUNT_SUBSCRIPTION")
  , (.anyContains ["ASTRO", "SHELL", "76", "CHEVRON"], "GAS")
  , (.eq "HRB ONLINE TAX PRODUCT", "FILING_TAXES")
  , (.eq "JEWELERS-MUTUAL-PMNT", "DIAMOND_INSURANCE")
  , (.eq "BLAZERVISION", "BLAZER_VISION_SUBSCRIPTION")
  , (.eq "DUNCD ON PRIME", "PODCAST_SUBSCRIPTION")
  , (.anyContains ["ARTS TAX"], "PORTLAND_ARTS_TAX")
  , (.anyContains ["OPAL CAMERA"], "COMPUTERS_TECHNOLOGY_HARDWARE")
  , (.anyContains ["USPS PO", "FEDEX OFFIC"], "SHIPPING")
  , (.anyContains ["RODEO"], "RODEO")
  , (.anyContains ["ENTERPRISE RENT", "AMTRAK"], "OTHER_TRANSPORTATION")
  ]

/-- The bank account categorizer (src/etl/layers/staging.py lines 39-99). -/
def _categorize_individual_bank_transaction (d : String) : String :=
  firstMatch bankRules d

/-- The credit card categorizer (src/etl/layers/staging.py lines 110-460). -/
def _categorize_individual_credit_card_transaction (d : String) : String :=
  firstMatch creditCardRules d

/-- Row-level form of _update_credit_card_transactions_categories
(src/etl/layers/staging.py lines 476-494): the np.select conditions are
evaluated top to bottom with the existing category as default. -/
def _update_credit_card_transaction_category
    (category : String) (day_of_week : Nat) (chase_category : String) : String :=
  if category = "OVATION" ∧ (day_of_week = 6 ∨ day_of_week = 7) then "OVATION_WEEKEND"
  else if category = "OVATION" ∧ ¬(day_of_week = 6 ∨ day_of_week = 7) then "OVATION_WEEKDAY"
  else if category = "OTHER" ∧ chase_category = "Food & Drink" then "EATING_OUT"
  else category

/-! ## Unifier (src/etl/layers/marts.py) -/

/-- Row of the staging_bank_account_transactions table read by the unifier. -/
structure BankStagingRow where
  id : String
  date : String
  amount : ℚ
  description : String
  balance : ℚ
  account : String
  source_file : String
  imported_at : String
  year : Int
  month : Nat
  year_month : String
  day_of_week : Nat
  category : String
deriving DecidableEq

/-- Row of the staging_credit_card_transactions table read by the unifier. -/
structure CreditCardStagingRow where
  id : String
  date : String
  amount : ℚ
  description : String
  chase_category : String
  card_number : String
  source_file : String
  imported_at : String
  year : Int
  month : Nat
  year_month : String
  day_of_week : Nat
  category : String
deriving DecidableEq

/-- Row of the unified transaction stream produced by the unifier: the
source-specific identifier columns are renamed to account_or_card_number, a
source tag is added, and bookkeeping columns are dropped. -/
structure UnifiedRow where
  id : String
  date : String
  amount : ℚ
  description : String
  account_or_card_number : String
  source : String
  year : Int
  month : Nat
  year_month : String
  day_of_week : Nat
  category : String
deriving DecidableEq

/-- Column renaming and the source tag of _prepare_bank_account_tx_for_union. -/
def prepareBankRow (r : BankStagingRow) : UnifiedRow :=
  { id := r.id, date := r.date, amount := r.amount, description := r.description,
    account_or_card_number := r.account, source := "bank_account",
    year := r.year, month := r.month, year_month := r.year_month,
    day_of_week := r.day_of_week, category := r.category }

/-- Column renaming and the source tag of _prepare_credit_card_tx_for_union. -/
def prepareCreditCardRow (r : CreditCardStagingRow) : UnifiedRow :=
  { id := r.id, date := r.date, amount := r.amount, description := r.description,
    account_or_card_number := r.card_number, source := "credit_card",
    year := r.year, month := r.month, year_month := r.year_month,
    day_of_week := r.day_of_week, category := r.category }

/-- Bank-side preparation (src/etl/layers/marts.py lines 5-12): drop rows
whose category is an inter-account transfer or a credit card bill payment,
drop bookkeeping columns, rename, tag the source. -/
def _prepare_bank_account_tx_for_union (df : List BankStagingRow) : List UnifiedRow :=
  (df.filter
    (fun r => !((["TRANSFER_BETWEEN_CHASE_ACCOUNTS", "CREDIT_CARD_PAYMENT"] : List String).contains r.category))).map
    prepareBankRow

/-- Credit-card-side preparation (src/etl/layers/marts.py lines 14-21):
drop rows whose category is a credit card bill payment, drop bookkeeping
columns, rename, tag the source. -/
def _prepare_credit_card_tx_for_union (df : List CreditCardStagingRow) : List UnifiedRow :=
  (df.filter
    (fun r => !((["CREDIT_CARD_PAYMENT"] : List String).contains r.category))).map
    prepareCreditCardRow

/-- The unifier create_unified_transactions (src/etl/layers/marts.py lines
23-39), as a pure function of the two staging tables it reads: the prepared
credit card stream concatenated with the prepared bank stream. -/
def create_unified_transactions
    (bank : List BankStagingRow) (cc : List CreditCardStagingRow) : List UnifiedRow :=
  _prepare_credit_card_tx_for_union cc ++ _prepare_bank_account_tx_for_union bank

/-- Bank staging row used to exhibit an id collision across the two sources. -/
def bankRowX : BankStagingRow :=
  { id := "x", date := "2024-01-15", amount := 2500, description := "PAYROLL",
    balance := 0, account := "Chase1234", source_file := "a.csv", imported_at := "t",
    year := 2024, month := 1, year_month := "2024-01", day_of_week := 1,
    category := "SALARY" }

/-- Credit card staging row sharing its id with bankRowX. -/
def ccRowX : CreditCardStagingRow :=
  { id := "x", date := "2024-01-16", amount := -100, description := "STORE",
    chase_category := "Groceries", card_number := "Chase5678",
    source_file := "b.csv", imported_at := "t",
    year := 2024, month := 1, year_month := "2024-01", day_of_week := 2,
    category := "GROCERIES" }

/-! ## Metrics engine (src/api/metrics.py; src/app/views.py has the same
windowing functions verbatim) -/

/-- Row of a marts table as consumed by the metrics engine. The structure
carries the union of the columns the embedded functions touch: year and
year_month for windowing, meta_category for the wedding toggle and the
spending aggregation, category for the salary filter, amount for sums. -/
structure MartRow where
  year : Int
  year_month : String
  category : String
  meta_category : String
  amount : ℚ
deriving DecidableEq

/-- determine_last_X_months_from_dataset (src/api/metrics.py lines 7-20):
distinct year_month values, sorted descending, first n taken. -/
def determine_last_X_months_from_dataset (df : List MartRow) (n : Nat) : List String :=
  ((dedupFirst (df.map (·.year_month))).mergeSort (fun a b => strLe b a)).take n

/-- subset_data_by_period (src/api/metrics.py lines 37-79): subset the
dataset by the requested period selector, raising ValueError on any other
selector. The raise is modelled as Except.error with the source message. -/
def subset_data_by_period (df : List MartRow) (period : String) : Except String (List MartRow) :=
  if period = "ytd" then
    .ok (match (df.map (·.year)).max? with
         | some m => df.filter (fun r => decide (r.year = m))
         | none => [])
  else if period = "last_1_months" then
    .ok (df.filter (fun r => (determine_last_X_months_from_dataset df 1).contains r.year_month))
  else if period = "last_3_months" then
    .ok (df.filter (fun r => (determine_last_X_months_from_dataset df 3).contains r.year_month))
  else if period = "last_6_months" then
    .ok (df.filter (fun r => (determine_last_X_months_from_dataset df 6).contains r.year_month))
  else if period = "last_12_months" then
    .ok (df.filter (fun r => (determine_last_X_months_from_dataset df 12).contains r.year_month))
  else if period = "full_history" then
    .ok df
  else
    .error "Invalid period parameter. period can be \x27ytd\x27, \x27last_1_months\x27, \x27last_3_months\x27, \x27last_6_months\x27, \x27last_12_months\x27, \x27full_history\x27"

/-- include_wedding_spending (src/api/metrics.py lines 23-34). -/
def include_wedding_spending (df : List MartRow) (include_wedding : Bool) : List MartRow :=
  if !include_wedding then df.filter (fun r => decide (r.meta_category ≠ "WEDDING")) else df

/-- Row of the intermediate monthly_data groupby of
calculate_average_monthly_spending_by_meta_category. -/
structure MonthlyMetaRow where
  year_month : String
  meta_category : String
  total_spend : ℚ
  monthly_transactions : Nat
deriving DecidableEq

/-- The groupby on (year_month, meta_category) with sum and count of amount
(src/api/metrics.py lines 94-97). Group keys are the distinct key pairs of
the data; the key order produced by pandas (sorted) differs only in row
order, which no claim depends on. -/
def monthlyMetaData (data : List MartRow) : List MonthlyMetaRow :=
  (dedupFirst (data.map (fun r => (r.year_month, r.meta_category)))).map
    (fun k =>
      let g := data.filter (fun r => decide (r.year_month = k.1 ∧ r.meta_category = k.2))
      { year_month := k.1, meta_category := k.2,
        total_spend := (g.map (·.amount)).sum,
        monthly_transactions := g.length })

/-- Output row of calculate_average_monthly_spending_by_meta_category. -/
structure AvgSpendRow where
  meta_category : String
  number_of_months_in_sample : Nat
  months_with_transactions : Nat
  spending_occurs_every_month : Bool
  avg_monthly_transactions : ℚ
  total_spend : ℚ
  avg_monthly_spend : ℚ
  pct_of_avg_monthly_spend : ℚ
deriving DecidableEq

/-- Rounding to four decimal places. Python round is round-half-to-even and
Mathlib round is round-half-up; they agree except on exact ties, and no
claim concerns the rounded percentage column. -/
def round4 (q : ℚ) : ℚ := (round (q * 10000) : ℤ) / 10000

/-- Output row of the meta-category groupby of
calculate_average_monthly_spending_by_meta_category for one meta-category,
before the percentage column is assigned: totals, counts and averages over
the monthly groupby rows of that meta-category. -/
def avgSpendRowFor (monthly : List MonthlyMetaRow) (number_of_months : Nat)
    (m : String) : AvgSpendRow :=
  let g := monthly.filter (fun r => decide (r.meta_category = m))
  { meta_category := m,
    number_of_months_in_sample := number_of_months,
    months_with_transactions := g.length,
    spending_occurs_every_month := decide ((number_of_months : Nat) = g.length),
    avg_monthly_transactions :=
      (g.map (fun r => (r.monthly_transactions : ℚ))).sum / (g.length : ℚ),
    total_spend := (g.map (·.total_spend)).sum,
    avg_monthly_spend := (g.map (·.total_spend)).sum / (number_of_months : ℚ),
    pct_of_avg_monthly_spend := 0 }

/-- Assignment of the percentage-of-total column over the whole output. -/
def pctAssign (sumAvg : ℚ) (r : AvgSpendRow) : AvgSpendRow :=
  { r with pct_of_avg_monthly_spend := round4 (r.avg_monthly_spend / sumAvg) * 100 }

/-- Aggregation core of calculate_average_monthly_spending_by_meta_category
(src/api/metrics.py lines 94-132), applied to the already windowed and
wedding-filtered data: per-month-per-meta-category groupby, then per
meta-category totals, averages over the window month count, the every-month
flag, the percentage column, and the final sort by average spend. -/
def calculate_average_monthly_spending_core (data : List MartRow) : List AvgSpendRow :=
  let monthly := monthlyMetaData data
  let number_of_months := (dedupFirst (monthly.map (·.year_month))).length
  let metas := dedupFirst (monthly.map (·.meta_category))
  let rows := metas.map (avgSpendRowFor monthly number_of_months)
  let sumAvg := (rows.map (·.avg_monthly_spend)).sum
  (rows.map (pctAssign sumAvg)).mergeSort
    (fun a b => decide (a.avg_monthly_spend ≤ b.avg_monthly_spend))

/-- calculate_average_monthly_spending_by_meta_category (src/api/metrics.py
lines 82-132) as a function of the marts_spending table it reads. -/
def calculate_average_monthly_spending_by_meta_category
    (df : List MartRow) (period : String) (include_wedding : Bool) :
    Except String (List AvgSpendRow) :=
  (subset_data_by_period df period).map
    (fun sub => calculate_average_monthly_spending_core (include_wedding_spending sub include_wedding))

/-- Value of a decimal digit string, as positional digits. -/
def parseDigits (l : List Char) : Nat := l.foldl (fun acc c => acc * 10 + (c.toNat - 48)) 0

/-- Month index of a year_month key "YYYY-MM": models the pd.to_datetime
conversion of the key to a month-resolution timestamp, linearized as
year * 12 + (month - 1). -/
def ymIndex (s : String) : Nat :=
  parseDigits (s.data.take 4) * 12 + (parseDigits (s.data.drop 5) - 1)

/-- The groupby on the month of calculate_monthly_saving: observed months in
keep-first order with the sum of their amounts. -/
def monthlySavingGroups (data : List MartRow) : List (Nat × ℚ) :=
  (dedupFirst (data.map (fun r => ymIndex r.year_month))).map
    (fun m => (m, ((data.filter (fun r => decide (ymIndex r.year_month = m))).map (·.amount)).sum))

/-- Core of calculate_monthly_saving (src/api/metrics.py lines 147-167),
applied to the already windowed data: group amounts by month, then reindex
over date_range(min observed, max observed, freq MS) filling missing months
with 0. On an empty input pandas date_range over NaT has no rows. -/
def calculate_monthly_saving_core (data : List MartRow) : List (Nat × ℚ) :=
  match data.map (fun r => ymIndex r.year_month) with
  | [] => []
  | i :: is =>
    let lo := is.foldl min i
    let hi := is.foldl max i
    (List.range (hi + 1 - lo)).map
      (fun k => (lo + k, ((monthlySavingGroups data).lookup (lo + k)).getD 0))

/-- calculate_monthly_saving (src/api/metrics.py lines 147-167) as a
function of the marts_savings table it reads. -/
def calculate_monthly_saving (df : List MartRow) (period : String) :
    Except String (List (Nat × ℚ)) :=
  (subset_data_by_period df period).map calculate_monthly_saving_core

/-! Spec-side definitions, phrased after the words of the specification and
compared with the code-side definitions above by the claim theorems. -/

/-- Spec-side reading of the last_N_months window: the year_month value
occurs in the full input and fewer than n distinct year_month values of the
full input are lexicographically greater. -/
def amongNLargestDistinct (df : List MartRow) (n : Nat) (y : String) : Bool :=
  (df.map (·.year_month)).contains y &&
  decide (((dedupFirst (df.map (·.year_month))).filter (fun z => strLt y z)).length < n)

/-- Spec-side count of distinct months observed anywhere in a dataset. -/
def distinctMonthCount (data : List MartRow) : Nat :=
  (dedupFirst (data.map (·.year_month))).length

/-- Spec-side total spend of one meta-category: the sum over all its rows. -/
def metaTotalSpend (data : List MartRow) (m : String) : ℚ :=
  ((data.filter (fun r => decide (r.meta_category = m))).map (·.amount)).sum

/-- Spec-side count of months in which a meta-category has at least one
transaction. -/
def metaMonthsWithSpend (data : List MartRow) (m : String) : Nat :=
  (dedupFirst ((data.filter (fun r => decide (r.meta_category = m))).map (·.year_month))).length

/-- Spec-side list of observed months of a savings dataset. -/
def observedMonths (data : List MartRow) : List Nat :=
  data.map (fun r => ymIndex r.year_month)

/-! ## Raw importer (src/etl/layers/raw.py; src/csv_importer.py has the
identical _generate_id) -/

/-- MD5 round constants, the standard table of RFC 1321. -/
def md5K : List Nat :=
  [ 0xd76aa478, 0xe8c7b756, 0x242070db, 0xc1bdceee
  , 0xf57c0faf, 0x4787c62a, 0xa8304613, 0xfd469501
  , 0x698098d8, 0x8b44f7af, 0xffff5bb1, 0x895cd7be
  , 0x6b901122, 0xfd987193, 0xa679438e, 0x49b40821
  , 0xf61e2562, 0xc040b340, 0x265e5a51, 0xe9b6c7aa
  , 0xd62f105d, 0x02441453, 0xd8a1e681, 0xe7d3fbc8
  , 0x21e1cde6, 0xc33707d6, 0xf4d50d87, 0x455a14ed
  , 0xa9e3e905, 0xfcefa3f8, 0x676f02d9, 0x8d2a4c8a
  , 0xfffa3942, 0x8771f681, 0x6d9d6122, 0xfde5380c
  , 0xa4beea44, 0x4bdecfa9, 0xf6bb4b60, 0xbebfbc70
  , 0x289b7ec6, 0xeaa127fa, 0xd4ef3085, 0x04881d05
  , 0xd9d4d039, 0xe6db99e5, 0x1fa27cf8, 0xc4ac5665
  , 0xf4292244, 0x432aff97, 0xab9423a7, 0xfc93a039
  , 0x655b59c3, 0x8f0ccc92, 0xffeff47d, 0x85845dd1
  , 0x6fa87e4f, 0xfe2ce6e0, 0xa3014314, 0x4e0811a1
  , 0xf7537e82, 0xbd3af235, 0x2ad7d2bb, 0xeb86d391 ]

/-- MD5 per-round left-rotation amounts. -/
def md5S : List Nat :=
  [ 7, 12, 17, 22, 7, 12, 17, 22, 7, 12, 17, 22, 7, 12, 17, 22
  , 5, 9, 14, 20, 5, 9, 14, 20, 5, 9, 14, 20, 5, 9, 14, 20
  , 4, 11, 16, 23, 4, 11, 16, 23, 4, 11, 16, 23, 4, 11, 16, 23
  , 6, 10, 15, 21, 6, 10, 15, 21, 6, 10, 15, 21, 6, 10, 15, 21 ]

/-- Addition modulo two to the thirty-two. -/
def add32 (x y : Nat) : Nat := (x + y) % 4294967296

/-- Left rotation of a 32-bit word. -/
def rotl32 (x s : Nat) : Nat := ((x <<< s) % 4294967296) ||| (x >>> (32 - s))

/-- MD5 nonlinear round functions, selected by round index. -/
def md5F (i b c d : Nat) : Nat :=
  if i < 16 then (b &&& c) ||| ((b ^^^ 4294967295) &&& d)
  else if i < 32 then (d &&& b) ||| ((d ^^^ 4294967295) &&& c)
  else if i < 48 then b ^^^ c ^^^ d
  else c ^^^ (b ||| (d ^^^ 4294967295))

/-- MD5 message-word schedule, selected by round index. -/
def md5G (i : Nat) : Nat :=
  if i < 16 then i
  else if i < 32 then (5 * i + 1) % 16
  else if i < 48 then (3 * i + 5) % 16
  else (7 * i) % 16

/-- UTF-8 encoding of one character as byte values; hashlib md5 consumes the
UTF-8 encoding of the content string. -/
def utf8Bytes (c : Char) : List Nat :=
  let n := c.toNat
  if n < 128 then [n]
  else if n < 2048 then [192 + n / 64, 128 + n % 64]
  else if n < 65536 then [224 + n / 4096, 128 + (n / 64) % 64, 128 + n % 64]
  else [240 + n / 262144, 128 + (n / 4096) % 64, 128 + (n / 64) % 64, 128 + n % 64]

/-- UTF-8 bytes of a string. -/
def strBytes (s : String) : List Nat := s.data.flatMap utf8Bytes

/-- MD5 padding: the byte 128, zero bytes up to 56 modulo 64, then the
64-bit little-endian bit length. -/
def md5Pad (msg : List Nat) : List Nat :=
  let len := msg.length
  let zeros := (56 + 64 - (len + 1) % 64) % 64
  let bitLen := (8 * len) % (2 ^ 64)
  msg ++ [128] ++ List.replicate zeros 0 ++ (List.range 8).map (fun i => (bitLen >>> (8 * i)) % 256)

/-- Little-endian 32-bit word starting at a byte offset. -/
def md5Word (bytes : List Nat) (base : Nat) : Nat :=
  bytes.getD base 0 + 256 * bytes.getD (base + 1) 0 +
  65536 * bytes.getD (base + 2) 0 + 16777216 * bytes.getD (base + 3) 0

/-- One MD5 block: 64 rounds over the state, then addition of the incoming
state. -/
def md5Block (bytes : List Nat) (blockIdx : Nat) (st : Nat × Nat × Nat × Nat) :
    Nat × Nat × Nat × Nat :=
  let r := (List.range 64).foldl
    (fun (s : Nat × Nat × Nat × Nat) i =>
      let (a, b, c, d) := s
      let f := add32 (add32 (add32 a (md5F i b c d)) (md5K.getD i 0))
        (md5Word bytes (64 * blockIdx + 4 * (md5G i)))
      (d, add32 b (rotl32 f (md5S.getD i 0)), b, c))
    st
  (add32 st.1 r.1, add32 st.2.1 r.2.1, add32 st.2.2.1 r.2.2.1, add32 st.2.2.2 r.2.2.2)

/-- MD5 digest of a byte list, as 16 bytes. -/
def md5Digest (msg : List Nat) : List Nat :=
  let p := md5Pad msg
  let st := (List.range (p.length / 64)).foldl (fun st i => md5Block p i st)
    (0x67452301, 0xefcdab89, 0x98badcfe, 0x10325476)
  [st.1, st.2.1, st.2.2.1, st.2.2.2].flatMap
    (fun w => [w % 256, (w >>> 8) % 256, (w >>> 16) % 256, (w >>> 24) % 256])

/-- Lowercase hexadecimal digit of a value below 16. -/
def hexChar (n : Nat) : Char := if n < 10 then Char.ofNat (48 + n) else Char.ofNat (87 + n)

/-- Two lowercase hexadecimal digits of a byte. -/
def byteHex (b : Nat) : List Char := [hexChar (b / 16), hexChar (b % 16)]

/-- Lowercase hexadecimal MD5 digest of a string, as hashlib hexdigest. -/
def md5hex (s : String) : String := String.mk ((md5Digest (strBytes s)).flatMap byteHex)

/-- Raw CSV row as seen by the importer save loop; the date and amount
fields are modelled by their str() formatting, which the content f-string
interpolates. -/
structure RawTxRow where
  date : String
  amount : String
  description : String
deriving DecidableEq

/-- Character-level take on strings; models Python string slicing s[:n],
which counts characters. -/
def strTake (s : String) (n : Nat) : String := String.mk (s.data.take n)

/-- CSVImporter._generate_id (src/etl/layers/raw.py lines 30-34, identical
in src/csv_importer.py lines 50-54): the first 12 hexadecimal characters of
the MD5 of date, amount and the first 50 characters of the description. -/
def _generate_id (r : RawTxRow) : String :=
  strTake (md5hex (r.date ++ r.amount ++ strTake r.description 50)) 12

/-- Stored transaction as inserted by the save loop; only the columns
derived from the raw row are modelled. -/
structure StoredTx where
  id : String
  date : String
  amount : String
  description : String
deriving DecidableEq

/-- Construction of the BankAccountTransaction record from a raw row. -/
def mkBankTransaction (r : RawTxRow) : StoredTx :=
  { id := _generate_id r, date := r.date, amount := r.amount, description := r.description }

/-- Save loop of BankAccountCSVImporter.import_csv (src/etl/layers/raw.py
lines 91-113): for each row in order, query the table for an existing
transaction with the generated id and insert only when none exists. -/
def importCsvRows (rows : List RawTxRow) (table : List StoredTx) : List StoredTx :=
  rows.foldl
    (fun acc r => if acc.any (fun t => t.id == _generate_id r) then acc else acc ++ [mkBankTransaction r])
    table

/-! Concrete fixture values used by witness theorems. -/

/-- Bank staging row with an ordinary category, used as a witness fixture. -/
def bankRowW : BankStagingRow :=
  { id := "b1", date := "2024-02-10", amount := -40, description := "PINNACLE COA DUES",
    balance := 100, account := "Chase1234", source_file := "a.csv", imported_at := "t",
    year := 2024, month := 2, year_month := "2024-02", day_of_week := 6,
    category := "HOA_PAYMENT" }

/-- Credit card staging row categorized as a bill payment, used as a witness
fixture. -/
def ccRowW : CreditCardStagingRow :=
  { id := "c1", date := "2024-02-11", amount := 500, description := "PAYMENT THANK YOU-MOBILE",
    chase_category := "Payment", card_number := "Chase5678",
    source_file := "b.csv", imported_at := "t",
    year := 2024, month := 2, year_month := "2024-02", day_of_week := 7,
    category := "CREDIT_CARD_PAYMENT" }

/-- Savings rows observed only in January and March 2024, the densification
example of the specification. -/
def savingsExample : List MartRow :=
  [ { year := 2024, year_month := "2024-01", category := "TRANSFER_TO_BROKERAGE",
      meta_category := "OTHER", amount := 10 }
  , { year := 2024, year_month := "2024-03", category := "TRANSFER_TO_BROKERAGE",
      meta_category := "OTHER", amount := 5 } ]

/-- Spending rows over two months and two meta-categories, used as a witness
fixture for the averaging claim. -/
def spendExample : List MartRow :=
  [ { year := 2024, year_month := "2024-01", category := "GROCERIES",
      meta_category := "GROCERIES", amount := 25/2 }
  , { year := 2024, year_month := "2024-01", category := "GROCERIES",
      meta_category := "GROCERIES", amount := 45 }
  , { year := 2024, year_month := "2024-02", category := "GROCERIES",
      meta_category := "GROCERIES", amount := 150 }
  , { year := 2024, year_month := "2024-02", category := "PGE",
      meta_category := "UTILITIES", amount := 100 } ]

/-- Output row of the averaging core for the GROCERIES meta-category of
spendExample, used as a witness fixture. -/
def grocOutRow : AvgSpendRow :=
  { meta_category := "GROCERIES", number_of_months_in_sample := 2,
    months_with_transactions := 2, spending_occurs_every_month := true,
    avg_monthly_transactions := 3/2, total_spend := 415/2,
    avg_monthly_spend := 415/4, pct_of_avg_monthly_spend := 1687/25 }

/-- Raw row whose description is fifty letters A followed by X. -/
def rawRow1 : RawTxRow :=
  { date := "2024-01-15 00:00:00", amount := "-12.5",
    description := "AAAAAAAAAAAAAAAAAAAAAAAAAAAAAAAAAAAAAAAAAAAAAAAAAAX" }

/-- Raw row agreeing with rawRow1 on date, amount and the first fifty
characters of the description, differing at character fifty-one. -/
def rawRow2 : RawTxRow :=
  { date := "2024-01-15 00:00:00", amount := "-12.5",
    description := "AAAAAAAAAAAAAAAAAAAAAAAAAAAAAAAAAAAAAAAAAAAAAAAAAAY" }

/-! # Theorems -/

/-! ## First-match rule interpretation -/

/-- When no rule of the list matches, the interpretation yields OTHER. -/
theorem firstMatch_eq_other_of_no_match (rules : List (Pred × String)) (d : String)
    (h : ∀ r ∈ rules, r.1.eval d = false) : firstMatch rules d = "OTHER" := by
  induction rules with
  | nil => rfl
  | cons r rest ih =>
    obtain ⟨p, c⟩ := r
    have hp : p.eval d = false := h (p, c) (List.mem_cons_self _ _)
    rw [firstMatch, hp]
    exact ih (fun r hr => h r (List.mem_cons_of_mem _ hr))

/-- The interpretation always lands in the rule categories or OTHER. -/
theorem firstMatch_mem_categories (rules : List (Pred × String)) (d : String) :
    firstMatch rules d ∈ "OTHER" :: rules.map Prod.snd := by
  induction rules with
  | nil => simp [firstMatch]
  | cons r rest ih =>
    obtain ⟨p, c⟩ := r
    by_cases hp : p.eval d = true
    · simp [firstMatch, hp]
    · rw [firstMatch, Bool.not_eq_true] at *
      rw [hp]
      rcases List.mem_cons.mp ih with h | h
      · simp [h]
      · simp only [List.map_cons, List.mem_cons]
        exact Or.inr (Or.inr h)

/-- C1: for every description, the bank account classifier and the credit
card classifier are total functions into their fixed category code lists
(so classification cannot raise), and whenever no rule of the ordered rule
list matches the description the returned category is exactly OTHER. -/
theorem C1_classifiers_never_raise_default_other (d : String) :
    ((∀ r ∈ bankRules, r.1.eval d = false) →
      _categorize_individual_bank_transaction d = "OTHER") ∧
    _categorize_individual_bank_transaction d ∈ "OTHER" :: bankRules.map Prod.snd ∧
    ((∀ r ∈ creditCardRules, r.1.eval d = false) →
      _categorize_individual_credit_card_transaction d = "OTHER") ∧
    _categorize_individual_credit_card_transaction d ∈ "OTHER" :: creditCardRules.map Prod.snd :=
  ⟨firstMatch_eq_other_of_no_match _ d, firstMatch_mem_categories _ d,
   firstMatch_eq_other_of_no_match _ d, firstMatch_mem_categories _ d⟩

/-- Witness for C1 at a concrete description that no rule matches. -/
theorem C1_witness :
    _categorize_individual_bank_transaction "ZZZ" = "OTHER" ∧
    _categorize_individual_credit_card_transaction "ZZZ" = "OTHER" :=
  ⟨(C1_classifiers_never_raise_default_other "ZZZ").1 (by decide),
   (C1_classifiers_never_raise_default_other "ZZZ").2.2.1 (by decide)⟩

/-! ## Context refinement of credit card categories -/

/-- C5: the refinement pass rewrites OVATION to OVATION_WEEKEND exactly on
day_of_week 6 or 7 and to OVATION_WEEKDAY otherwise, rewrites OTHER to
EATING_OUT exactly when the source-provided chase_category is Food & Drink,
and leaves every other category unchanged. -/
theorem C5_context_refinement (cat chase : String) (dow : Nat) :
    _update_credit_card_transaction_category "OVATION" dow chase =
      (if dow = 6 ∨ dow = 7 then "OVATION_WEEKEND" else "OVATION_WEEKDAY") ∧
    _update_credit_card_transaction_category "OTHER" dow chase =
      (if chase = "Food & Drink" then "EATING_OUT" else "OTHER") ∧
    (cat ≠ "OVATION" → cat ≠ "OTHER" →
      _update_credit_card_transaction_category cat dow chase = cat) := by
  refine ⟨?_, ?_, fun h1 h2 => ?_⟩
  · unfold _update_credit_card_transaction_category
    by_cases h : dow = 6 ∨ dow = 7
    · rw [if_pos ⟨rfl, h⟩, if_pos h]
    · rw [if_neg (fun hc => h hc.2), if_pos ⟨rfl, h⟩, if_neg h]
  · unfold _update_credit_card_transaction_category
    rw [if_neg (fun hc => by simpa using hc.1), if_neg (fun hc => by simpa using hc.1)]
    by_cases h : chase = "Food & Drink"
    · rw [if_pos ⟨rfl, h⟩, if_pos h]
    · rw [if_neg (fun hc => h hc.2), if_neg h]
  · unfold _update_credit_card_transaction_category
    rw [if_neg (fun hc => h1 hc.1), if_neg (fun hc => h1 hc.1), if_neg (fun hc => h2 hc.1)]

/-- Witness for C5 at a concrete untouched category. -/
theorem C5_witness :
    _update_credit_card_transaction_category "GAS" 6 "Food & Drink" = "GAS" :=
  (C5_context_refinement "GAS" "Food & Drink" 6).2.2 (by decide) (by decide)

/-! ## Period selector validation -/

/-- C4: every period selector outside the six supported values is rejected
with the invalid-argument error of the source, and full_history returns the
input unchanged. -/
theorem C4_invalid_period_rejected (df : List MartRow) (period : String)
    (h : period ∉ (["ytd", "last_1_months", "last_3_months", "last_6_months",
      "last_12_months", "full_history"] : List String)) :
    subset_data_by_period df period =
      .error "Invalid period parameter. period can be \x27ytd\x27, \x27last_1_months\x27, \x27last_3_months\x27, \x27last_6_months\x27, \x27last_12_months\x27, \x27full_history\x27" ∧
    subset_data_by_period df "full_history" = .ok df := by
  constructor
  · simp only [List.mem_cons, List.not_mem_nil, or_false, not_or] at h
    obtain ⟨h1, h2, h3, h4, h5, h6⟩ := h
    unfold subset_data_by_period
    rw [if_neg h1, if_neg h2, if_neg h3, if_neg h4, if_neg h5, if_neg h6]
  · simp [subset_data_by_period]

/-- Witness for C4 at a concrete invalid selector. -/
theorem C4_witness :
    ("bogus" ∉ (["ytd", "last_1_months", "last_3_months", "last_6_months",
      "last_12_months", "full_history"] : List String)) ∧
    subset_data_by_period ([] : List MartRow) "bogus" =
      .error "Invalid period parameter. period can be \x27ytd\x27, \x27last_1_months\x27, \x27last_3_months\x27, \x27last_6_months\x27, \x27last_12_months\x27, \x27full_history\x27" ∧
    subset_data_by_period ([] : List MartRow) "full_history" = .ok [] := by
  have h := C4_invalid_period_rejected ([] : List MartRow) "bogus" (by decide)
  exact ⟨by decide, h.1, h.2⟩

/-! ## Importer id truncation -/

/-- C10: the transaction id is the first 12 hexadecimal characters of the
MD5 of date, amount and only the first 50 description characters, so two
raw rows agreeing on those inputs receive the same id and the save loop
stores only the first row, silently skipping the second. -/
theorem C10_id_collision_skips_second (r1 r2 : RawTxRow)
    (hd : r1.date = r2.date) (ha : r1.amount = r2.amount)
    (hdesc : strTake r1.description 50 = strTake r2.description 50) :
    _generate_id r1 = strTake (md5hex (r1.date ++ r1.amount ++ strTake r1.description 50)) 12 ∧
    _generate_id r1 = _generate_id r2 ∧
    importCsvRows [r1, r2] [] = [mkBankTransaction r1] := by
  have hid : _generate_id r1 = _generate_id r2 := by
    unfold _generate_id
    rw [hd, ha, hdesc]
  refine ⟨rfl, hid, ?_⟩
  simp [importCsvRows, mkBankTransaction, hid]

/-- Witness for C10: two concrete rows differing only past the fiftieth
description character, of which only the first is stored. -/
theorem C10_witness :
    rawRow1.description ≠ rawRow2.description ∧
    _generate_id rawRow1 = _generate_id rawRow2 ∧
    importCsvRows [rawRow1, rawRow2] [] = [mkBankTransaction rawRow1] := by
  have h := C10_id_collision_skips_second rawRow1 rawRow2 rfl rfl (by decide)
  exact ⟨by decide, h.2.1, h.2.2⟩

/-! ## Unifier -/

/-- C3 counterexample: the unifier performs no deduplication, so two input
streams that each have pairwise distinct ids but share one id across
sources produce a unified stream with a repeated id. -/
theorem C3_counterexample :
    ([bankRowX].map BankStagingRow.id).Nodup ∧
    ([ccRowX].map CreditCardStagingRow.id).Nodup ∧
    ¬ ((create_unified_transactions [bankRowX] [ccRowX]).map UnifiedRow.id).Nodup := by
  refine ⟨by simp, by simp, ?_⟩
  have h : (create_unified_transactions [bankRowX] [ccRowX]).map UnifiedRow.id = ["x", "x"] := by
    rfl
  rw [h]
  decide

/-- C3 amended: the unified stream has pairwise distinct ids when each
input stream has pairwise distinct ids and, in addition, no id occurs in
both prepared streams; the unifier itself removes nothing. -/
theorem C3_amended_nodup_ids (bank : List BankStagingRow) (cc : List CreditCardStagingRow)
    (hb : (bank.map BankStagingRow.id).Nodup)
    (hc : (cc.map CreditCardStagingRow.id).Nodup)
    (hdisj : ∀ i ∈ (_prepare_credit_card_tx_for_union cc).map UnifiedRow.id,
      i ∉ (_prepare_bank_account_tx_for_union bank).map UnifiedRow.id) :
    ((create_unified_transactions bank cc).map UnifiedRow.id).Nodup := by
  unfold create_unified_transactions
  rw [List.map_append, List.nodup_append]
  refine ⟨?_, ?_, fun i h1 h2 => hdisj i h1 h2⟩
  · unfold _prepare_credit_card_tx_for_union
    rw [List.map_map]
    have hcomp : (UnifiedRow.id ∘ prepareCreditCardRow) = CreditCardStagingRow.id := rfl
    rw [hcomp]
    exact hc.sublist (List.Sublist.map _ (List.filter_sublist _))
  · unfold _prepare_bank_account_tx_for_union
    rw [List.map_map]
    have hcomp : (UnifiedRow.id ∘ prepareBankRow) = BankStagingRow.id := rfl
    rw [hcomp]
    exact hb.sublist (List.Sublist.map _ (List.filter_sublist _))

/-- Witness for the amended C3 at concrete streams with no shared id. -/
theorem C3_witness :
    ((create_unified_transactions [bankRowW] [ccRowW]).map UnifiedRow.id).Nodup :=
  C3_amended_nodup_ids [bankRowW] [ccRowW] (by decide) (by decide) (by decide)

/-- Source tag of every prepared credit card row. -/
theorem source_of_prepared_cc (cc : List CreditCardStagingRow) :
    ∀ u ∈ _prepare_credit_card_tx_for_union cc, u.source = "credit_card" := by
  intro u hu
  unfold _prepare_credit_card_tx_for_union at hu
  obtain ⟨r, _, rfl⟩ := List.mem_map.mp hu
  rfl

/-- Source tag of every prepared bank row. -/
theorem source_of_prepared_bank (bank : List BankStagingRow) :
    ∀ u ∈ _prepare_bank_account_tx_for_union bank, u.source = "bank_account" := by
  intro u hu
  unfold _prepare_bank_account_tx_for_union at hu
  obtain ⟨r, _, rfl⟩ := List.mem_map.mp hu
  rfl

/-- C6: a bank transaction appears in the unified stream exactly when its
category is neither the inter-account transfer nor the credit card bill
payment category, and a credit card transaction appears exactly when its
category is not the bill payment category. -/
theorem C6_unified_exclusions (bank : List BankStagingRow) (cc : List CreditCardStagingRow) :
    (∀ r ∈ bank,
      (prepareBankRow r ∈ create_unified_transactions bank cc ↔
        r.category ∉ (["TRANSFER_BETWEEN_CHASE_ACCOUNTS", "CREDIT_CARD_PAYMENT"] : List String))) ∧
    (∀ r ∈ cc,
      (prepareCreditCardRow r ∈ create_unified_transactions bank cc ↔
        r.category ≠ "CREDIT_CARD_PAYMENT")) := by
  constructor
  · intro r hr
    constructor
    · intro hmem
      rcases List.mem_append.mp hmem with hcc | hbank
      · have hsrc := source_of_prepared_cc cc _ hcc
        simp [prepareBankRow] at hsrc
      · unfold _prepare_bank_account_tx_for_union at hbank
        obtain ⟨r', hr', heq⟩ := List.mem_map.mp hbank
        obtain ⟨_, hp⟩ := List.mem_filter.mp hr'
        have hcat : r'.category = r.category := congrArg UnifiedRow.category heq
        rw [← hcat]
        simpa using hp
    · intro hnot
      apply List.mem_append.mpr
      right
      unfold _prepare_bank_account_tx_for_union
      exact List.mem_map.mpr ⟨r, List.mem_filter.mpr ⟨hr, by simpa using hnot⟩, rfl⟩
  · intro r hr
    constructor
    · intro hmem
      rcases List.mem_append.mp hmem with hcc | hbank
      · unfold _prepare_credit_card_tx_for_union at hcc
        obtain ⟨r', hr', heq⟩ := List.mem_map.mp hcc
        obtain ⟨_, hp⟩ := List.mem_filter.mp hr'
        have hcat : r'.category = r.category := congrArg UnifiedRow.category heq
        rw [← hcat]
        simpa using hp
      · have hsrc := source_of_prepared_bank bank _ hbank
        simp [prepareCreditCardRow] at hsrc
    · intro hnot
      apply List.mem_append.mpr
      left
      unfold _prepare_credit_card_tx_for_union
      exact List.mem_map.mpr ⟨r, List.mem_filter.mpr ⟨hr, by simpa using hnot⟩, rfl⟩

/-- Witness for C6: a kept bank row and an excluded credit card payment. -/
theorem C6_witness :
    prepareBankRow bankRowW ∈ create_unified_transactions [bankRowW] [ccRowW] ∧
    prepareCreditCardRow ccRowW ∉ create_unified_transactions [bankRowW] [ccRowW] := by
  have h := C6_unified_exclusions [bankRowW] [ccRowW]
  constructor
  · exact (h.1 bankRowW (by simp)).mpr (by decide)
  · intro hmem
    exact absurd ((h.2 ccRowW (by simp)).mp hmem) (by decide)

/-! ## Keep-first deduplication -/

/-- Membership in the accumulator form of keep-first deduplication. -/
theorem mem_dedupFirstAux {α : Type} [DecidableEq α] (l : List α) (seen : List α) (x : α) :
    x ∈ dedupFirstAux seen l ↔ x ∈ l ∧ x ∉ seen := by
  induction l generalizing seen with
  | nil => simp [dedupFirstAux]
  | cons a t ih =>
    simp only [dedupFirstAux]
    split
    · rename_i ha
      rw [ih]
      constructor
      · rintro ⟨hx, hs⟩
        exact ⟨List.mem_cons_of_mem _ hx, hs⟩
      · rintro ⟨hx, hs⟩
        rcases List.mem_cons.mp hx with rfl | hx
        · exact absurd ha hs
        · exact ⟨hx, hs⟩
    · rename_i ha
      rw [List.mem_cons, ih]
      constructor
      · rintro (rfl | ⟨hx, hs⟩)
        · exact ⟨List.mem_cons_self _ _, ha⟩
        · refine ⟨List.mem_cons_of_mem _ hx, fun hseen => hs (List.mem_cons_of_mem _ hseen)⟩
      · rintro ⟨hx, hs⟩
        by_cases hxa : x = a
        · exact Or.inl hxa
        · rcases List.mem_cons.mp hx with rfl | hx2
          · exact Or.inl rfl
          · refine Or.inr ⟨hx2, fun hmem => ?_⟩
            rcases List.mem_cons.mp hmem with rfl | h2
            · exact hxa rfl
            · exact hs h2

/-- Keep-first deduplication never repeats a value. -/
theorem nodup_dedupFirstAux {α : Type} [DecidableEq α] (l seen : List α) :
    (dedupFirstAux seen l).Nodup := by
  induction l generalizing seen with
  | nil => simp [dedupFirstAux]
  | cons a t ih =>
    simp only [dedupFirstAux]
    split
    · exact ih _
    · exact List.nodup_cons.mpr
        ⟨fun h => (mem_dedupFirstAux t _ a |>.mp h).2 (List.mem_cons_self a seen), ih _⟩

/-- Deduplication preserves membership. -/
theorem mem_dedupFirst {α : Type} [DecidableEq α] (l : List α) (x : α) :
    x ∈ dedupFirst l ↔ x ∈ l := by
  simp [dedupFirst, mem_dedupFirstAux]

/-- The deduplicated list has no duplicates. -/
theorem nodup_dedupFirst {α : Type} [DecidableEq α] (l : List α) :
    (dedupFirst l).Nodup := nodup_dedupFirstAux l []

/-! ## Folded minimum and maximum over month lists -/

/-- The folded minimum is a lower bound of the start value and the list. -/
theorem foldl_min_le (is : List Nat) (i : Nat) : ∀ j ∈ i :: is, is.foldl min i ≤ j := by
  induction is generalizing i with
  | nil =>
    intro j hj
    rcases List.mem_cons.mp hj with rfl | hj
    · exact Nat.le_refl _
    · simp at hj
  | cons b bs ih =>
    intro j hj
    simp only [List.foldl_cons]
    have h1 := ih (min i b)
    rcases List.mem_cons.mp hj with rfl | hj2
    · exact Nat.le_trans (h1 _ (List.mem_cons_self _ _)) (Nat.min_le_left _ _)
    · rcases List.mem_cons.mp hj2 with rfl | hj3
      · exact Nat.le_trans (h1 _ (List.mem_cons_self _ _)) (Nat.min_le_right _ _)
      · exact h1 j (List.mem_cons_of_mem _ hj3)

/-- The folded minimum is attained by the start value or a list element. -/
theorem foldl_min_mem (is : List Nat) (i : Nat) : is.foldl min i ∈ i :: is := by
  induction is generalizing i with
  | nil => simp
  | cons b bs ih =>
    simp only [List.foldl_cons]
    rcases List.mem_cons.mp (ih (min i b)) with h | h
    · rcases min_choice i b with h2 | h2 <;> rw [h, h2]
      · exact List.mem_cons_self _ _
      · exact List.mem_cons_of_mem _ (List.mem_cons_self _ _)
    · exact List.mem_cons_of_mem _ (List.mem_cons_of_mem _ h)

/-- The folded maximum is an upper bound of the start value and the list. -/
theorem le_foldl_max (is : List Nat) (i : Nat) : ∀ j ∈ i :: is, j ≤ is.foldl max i := by
  induction is generalizing i with
  | nil =>
    intro j hj
    rcases List.mem_cons.mp hj with rfl | hj
    · exact Nat.le_refl _
    · simp at hj
  | cons b bs ih =>
    intro j hj
    simp only [List.foldl_cons]
    have h1 := ih (max i b)
    rcases List.mem_cons.mp hj with rfl | hj2
    · exact Nat.le_trans (Nat.le_max_left _ _) (h1 _ (List.mem_cons_self _ _))
    · rcases List.mem_cons.mp hj2 with rfl | hj3
      · exact Nat.le_trans (Nat.le_max_right _ _) (h1 _ (List.mem_cons_self _ _))
      · exact h1 j (List.mem_cons_of_mem _ hj3)

/-- The folded maximum is attained by the start value or a list element. -/
theorem foldl_max_mem (is : List Nat) (i : Nat) : is.foldl max i ∈ i :: is := by
  induction is generalizing i with
  | nil => simp
  | cons b bs ih =>
    simp only [List.foldl_cons]
    rcases List.mem_cons.mp (ih (max i b)) with h | h
    · rcases max_choice i b with h2 | h2 <;> rw [h, h2]
      · exact List.mem_cons_self _ _
      · exact List.mem_cons_of_mem _ (List.mem_cons_self _ _)
    · exact List.mem_cons_of_mem _ (List.mem_cons_of_mem _ h)

/-! ## Association lookup over mapped keys -/

/-- Lookup in an association list built by pairing each key with a computed
value. -/
theorem lookup_map_pairs (keys : List Nat) (f : Nat → ℚ) (m : Nat) :
    (keys.map (fun k => (k, f k))).lookup m = if m ∈ keys then some (f m) else none := by
  induction keys with
  | nil => simp [List.lookup]
  | cons k ks ih =>
    simp only [List.map_cons, List.lookup]
    by_cases h : m = k
    · subst h
      simp
    · have hbeq : (m == k) = false := by simp [h]
      rw [hbeq, ih]
      simp [List.mem_cons, h]

/-! ## Monthly savings densification -/

/-- C8: on every non-empty windowed savings dataset, the monthly saving
table has exactly one row per calendar month from the earliest to the
latest observed year_month inclusive, and each row carries the sum of the
amounts of its month, with 0 for months with no transactions (the empty
sum). -/
theorem C8_monthly_saving_densification (df : List MartRow) (period : String)
    (data : List MartRow) (hsub : subset_data_by_period df period = .ok data)
    (hne : data ≠ []) (lo hi : Nat)
    (hlo : lo ∈ observedMonths data ∧ ∀ j ∈ observedMonths data, lo ≤ j)
    (hhi : hi ∈ observedMonths data ∧ ∀ j ∈ observedMonths data, j ≤ hi) :
    calculate_monthly_saving df period = .ok (calculate_monthly_saving_core data) ∧
    ((calculate_monthly_saving_core data).map Prod.fst).Nodup ∧
    (∀ m : Nat, m ∈ (calculate_monthly_saving_core data).map Prod.fst ↔ lo ≤ m ∧ m ≤ hi) ∧
    (∀ p ∈ calculate_monthly_saving_core data,
      p.2 = ((data.filter (fun r => decide (ymIndex r.year_month = p.1))).map (·.amount)).sum) := by
  obtain ⟨d, ds, rfl⟩ : ∃ d ds, data = d :: ds := by
    cases data with
    | nil => exact absurd rfl hne
    | cons d ds => exact ⟨d, ds, rfl⟩
  set F : MartRow → Nat := fun r => ymIndex r.year_month with hF
  have hobs : observedMonths (d :: ds) = F d :: ds.map F := rfl
  set lo' := (ds.map F).foldl min (F d) with hlo'
  set hi' := (ds.map F).foldl max (F d) with hhi'
  have hlo_eq : lo = lo' := by
    have h1 : lo ≤ lo' := hlo.2 lo' (by rw [hobs]; exact foldl_min_mem _ _)
    have h2 : lo' ≤ lo := foldl_min_le (ds.map F) (F d) lo (by rw [← hobs]; exact hlo.1)
    omega
  have hhi_eq : hi = hi' := by
    have h1 : hi' ≤ hi := hhi.2 hi' (by rw [hobs]; exact foldl_max_mem _ _)
    have h2 : hi ≤ hi' := le_foldl_max (ds.map F) (F d) hi (by rw [← hobs]; exact hhi.1)
    omega
  have hlohi : lo' ≤ hi' := by
    have h1 : lo' ≤ F d := foldl_min_le (ds.map F) (F d) (F d) (List.mem_cons_self _ _)
    have h2 : F d ≤ hi' := le_foldl_max (ds.map F) (F d) (F d) (List.mem_cons_self _ _)
    omega
  have hcore : calculate_monthly_saving_core (d :: ds) =
      (List.range (hi' + 1 - lo')).map
        (fun k => (lo' + k, ((monthlySavingGroups (d :: ds)).lookup (lo' + k)).getD 0)) := by
    simp only [calculate_monthly_saving_core, List.map_cons]
  have hfst : (calculate_monthly_saving_core (d :: ds)).map Prod.fst =
      (List.range (hi' + 1 - lo')).map (fun k => lo' + k) := by
    rw [hcore, List.map_map]
    rfl
  refine ⟨?_, ?_, ?_, ?_⟩
  · unfold calculate_monthly_saving
    rw [hsub]
    rfl
  · rw [hfst]
    exact List.Nodup.map (fun a b h => by omega) (List.nodup_range _)
  · intro m
    rw [hfst, hlo_eq, hhi_eq]
    simp only [List.mem_map, List.mem_range]
    constructor
    · rintro ⟨k, hk, rfl⟩
      omega
    · rintro ⟨h1, h2⟩
      exact ⟨m - lo', by omega, by omega⟩
  · intro p hp
    rw [hcore] at hp
    obtain ⟨k, _, rfl⟩ := List.mem_map.mp hp
    show ((monthlySavingGroups (d :: ds)).lookup (lo' + k)).getD 0 = _
    rw [monthlySavingGroups, lookup_map_pairs]
    by_cases hmem : lo' + k ∈ dedupFirst ((d :: ds).map fun r => ymIndex r.year_month)
    · rw [if_pos hmem]
      rfl
    · rw [if_neg hmem]
      have hempty : (d :: ds).filter (fun r => decide (ymIndex r.year_month = lo' + k)) = [] := by
        apply List.filter_eq_nil_iff.mpr
        intro r hr hdec
        apply hmem
        rw [mem_dedupFirst]
        have : ymIndex r.year_month = lo' + k := by simpa using hdec
        exact this ▸ List.mem_map_of_mem _ hr
      rw [hempty]
      rfl

/-- Witness for C8 at the densification example of the specification:
savings only in January and March 2024, with February present and zero. -/
theorem C8_witness :
    calculate_monthly_saving savingsExample "full_history" =
      .ok (calculate_monthly_saving_core savingsExample) ∧
    24289 ∈ (calculate_monthly_saving_core savingsExample).map Prod.fst ∧
    ((calculate_monthly_saving_core savingsExample).map Prod.fst).Nodup := by
  have h := C8_monthly_saving_densification savingsExample "full_history" savingsExample
    (by rfl) (by decide) 24288 24290 ⟨by decide, by decide⟩ ⟨by decide, by decide⟩
  exact ⟨h.1, (h.2.2.1 24289).mpr (by decide), h.2.1⟩

/-! ## Lexicographic order facts -/

/-- Characters with equal code points are equal. -/
theorem char_toNat_inj {a b : Char} (h : a.toNat = b.toNat) : a = b :=
  Char.ext (UInt32.toNat.inj h)

/-- The lexicographic order-or-equal relation is total. -/
theorem lexLe_total : ∀ (a b : List Char), (lexLe a b || lexLe b a) = true := by
  intro a
  induction a with
  | nil => intro b; simp [lexLe]
  | cons x xs ih =>
    intro b
    cases b with
    | nil => simp [lexLe]
    | cons y ys =>
      simp only [lexLe, Bool.or_eq_true, Bool.and_eq_true, decide_eq_true_eq]
      rcases Nat.lt_trichotomy x.toNat y.toNat with h | h | h
      · exact Or.inl (Or.inl h)
      · have h2 := ih ys
        rw [Bool.or_eq_true] at h2
        rcases h2 with h2 | h2
        · exact Or.inl (Or.inr ⟨h, h2⟩)
        · exact Or.inr (Or.inr ⟨h.symm, h2⟩)
      · exact Or.inr (Or.inl h)

/-- The lexicographic order-or-equal relation is transitive. -/
theorem lexLe_trans : ∀ (a b c : List Char),
    lexLe a b = true → lexLe b c = true → lexLe a c = true := by
  intro a
  induction a with
  | nil => intro b c _ _; rfl
  | cons x xs ih =>
    intro b c hab hbc
    cases b with
    | nil => simp [lexLe] at hab
    | cons y ys =>
      cases c with
      | nil => simp [lexLe] at hbc
      | cons z zs =>
        simp only [lexLe, Bool.or_eq_true, Bool.and_eq_true, decide_eq_true_eq] at hab hbc ⊢
        rcases hab with h1 | ⟨h1, h2⟩
        · rcases hbc with g1 | ⟨g1, g2⟩
          · exact Or.inl (by omega)
          · exact Or.inl (by omega)
        · rcases hbc with g1 | ⟨g1, g2⟩
          · exact Or.inl (by omega)
          · exact Or.inr ⟨by omega, ih ys zs h2 g2⟩

/-- The strict lexicographic relation is irreflexive. -/
theorem lexLt_irrefl : ∀ a, lexLt a a = false := by
  intro a
  induction a with
  | nil => rfl
  | cons x xs ih => simp [lexLt, ih]

/-- The strict lexicographic relation is asymmetric. -/
theorem lexLt_asymm : ∀ a b, lexLt a b = true → lexLt b a = true → False := by
  intro a
  induction a with
  | nil =>
    intro b h1 h2
    cases b with
    | nil => simp [lexLt] at h1
    | cons y ys => simp [lexLt] at h2
  | cons x xs ih =>
    intro b h1 h2
    cases b with
    | nil => simp [lexLt] at h1
    | cons y ys =>
      simp only [lexLt, Bool.or_eq_true, Bool.and_eq_true, decide_eq_true_eq] at h1 h2
      rcases h1 with g1 | ⟨g1, g2⟩ <;> rcases h2 with k1 | ⟨k1, k2⟩
      · omega
      · omega
      · omega
      · exact ih ys g2 k2

/-- The lexicographic order-or-equal relation is reflexive. -/
theorem lexLe_refl : ∀ a, lexLe a a = true := by
  intro a
  induction a with
  | nil => rfl
  | cons x xs ih => simp [lexLe, ih]

/-- Order-or-equal is strict order or equality. -/
theorem lexLe_iff_lt_or_eq : ∀ a b, lexLe a b = true ↔ (lexLt a b = true ∨ a = b) := by
  intro a
  induction a with
  | nil =>
    intro b
    cases b with
    | nil => simp [lexLe, lexLt]
    | cons y ys => simp [lexLe, lexLt]
  | cons x xs ih =>
    intro b
    cases b with
    | nil => simp [lexLe, lexLt]
    | cons y ys =>
      simp only [lexLe, lexLt, Bool.or_eq_true, Bool.and_eq_true, decide_eq_true_eq,
        List.cons.injEq]
      constructor
      · rintro (h | ⟨h, h2⟩)
        · exact Or.inl (Or.inl h)
        · rcases (ih ys).mp h2 with h3 | h3
          · exact Or.inl (Or.inr ⟨h, h3⟩)
          · exact Or.inr ⟨char_toNat_inj h, h3⟩
      · rintro ((h | ⟨h, h2⟩) | ⟨h, h2⟩)
        · exact Or.inl h
        · exact Or.inr ⟨h, (ih ys).mpr (Or.inl h2)⟩
        · exact Or.inr ⟨by rw [h], by rw [h2]; exact lexLe_refl ys⟩

/-- The descending merge sort of a duplicate-free list of strings is
strictly descending. -/
theorem sorted_strict_desc (S : List String) (hS : S.Nodup) :
    (S.mergeSort (fun a b => strLe b a)).Pairwise (fun a b => strLt b a = true) := by
  have hperm := List.mergeSort_perm S (fun a b => strLe b a)
  have hnd : (S.mergeSort (fun a b => strLe b a)).Nodup := hperm.nodup_iff.mpr hS
  have hsorted := @List.sorted_mergeSort String (fun a b : String => strLe b a)
    (fun a b c h1 h2 => lexLe_trans c.data b.data a.data h2 h1)
    (fun a b => lexLe_total b.data a.data) S
  refine (hsorted.and hnd).imp ?_
  rintro a b ⟨h1, h2⟩
  rcases (lexLe_iff_lt_or_eq b.data a.data).mp h1 with h3 | h3
  · exact h3
  · exact absurd (String.ext h3).symm h2

/-- Membership in a front segment of a strictly descending list is exactly
membership with fewer greater elements than the segment length. -/
theorem mem_take_sorted_desc : ∀ (L : List String),
    L.Pairwise (fun a b => strLt b a = true) → ∀ (n : Nat) (y : String),
    (y ∈ L.take n ↔ y ∈ L ∧ (L.filter (fun z => strLt y z)).length < n) := by
  intro L
  induction L with
  | nil => intro _ n y; simp
  | cons a t ih =>
    intro hL n y
    obtain ⟨ha, ht⟩ := List.pairwise_cons.mp hL
    cases n with
    | zero => simp
    | succ m =>
      rw [List.take_succ_cons]
      by_cases hy : y = a
      · subst hy
        have hfilter : (y :: t).filter (fun z => strLt y z) = [] := by
          apply List.filter_eq_nil_iff.mpr
          intro z hz hdec
          rcases List.mem_cons.mp hz with hz1 | hz2
          · subst hz1
            simp only [strLt, lexLt_irrefl] at hdec
            exact Bool.false_ne_true hdec
          · exact lexLt_asymm _ _ (ha z hz2) hdec
        rw [hfilter]
        simp
      · have hmemiff : y ∈ a :: List.take m t ↔ y ∈ List.take m t := by
          simp [List.mem_cons, hy]
        rw [hmemiff, ih ht m y]
        constructor
        · rintro ⟨hyt, hlen⟩
          have hlt : strLt y a = true := ha y hyt
          refine ⟨List.mem_cons_of_mem _ hyt, ?_⟩
          simp only [List.filter_cons, hlt, if_true, List.length_cons]
          omega
        · rintro ⟨hmem, hlen⟩
          rcases List.mem_cons.mp hmem with rfl | hyt
          · exact absurd rfl hy
          · have hlt : strLt y a = true := ha y hyt
            simp only [List.filter_cons, hlt, if_true, List.length_cons] at hlen
            exact ⟨hyt, by omega⟩

/-- Boolean equality from the equivalence of being true. -/
theorem bool_eq_of_iff {a b : Bool} (h : a = true ↔ b = true) : a = b := by
  cases a <;> cases b <;> simp_all

/-- The code-side window membership test agrees pointwise with the
spec-side among-the-n-largest-distinct test. -/
theorem contains_determine_eq_among (df : List MartRow) (n : Nat) (y : String) :
    (determine_last_X_months_from_dataset df n).contains y = amongNLargestDistinct df n y := by
  apply bool_eq_of_iff
  have hperm : ((dedupFirst (df.map (·.year_month))).mergeSort (fun a b => strLe b a)).Perm
      (dedupFirst (df.map (·.year_month))) := List.mergeSort_perm _ _
  have hsorted := sorted_strict_desc (dedupFirst (df.map (·.year_month))) (nodup_dedupFirst _)
  have htake := mem_take_sorted_desc _ hsorted n y
  have hmemT : ∀ z : String,
      z ∈ (dedupFirst (df.map (·.year_month))).mergeSort (fun a b => strLe b a) ↔
      z ∈ df.map (·.year_month) := by
    intro z
    rw [hperm.mem_iff, mem_dedupFirst]
  have hlen : (((dedupFirst (df.map (·.year_month))).mergeSort
      (fun a b => strLe b a)).filter (fun z => strLt y z)).length =
      ((dedupFirst (df.map (·.year_month))).filter (fun z => strLt y z)).length :=
    (hperm.filter _).length_eq
  constructor
  · intro h
    have hmem : y ∈ (determine_last_X_months_from_dataset df n) := List.elem_iff.mp h
    rw [determine_last_X_months_from_dataset] at hmem
    obtain ⟨hT, hcnt⟩ := htake.mp hmem
    rw [amongNLargestDistinct, Bool.and_eq_true]
    refine ⟨List.elem_iff.mpr ((hmemT y).mp hT), ?_⟩
    rw [decide_eq_true_eq, ← hlen]
    exact hcnt
  · intro h
    rw [amongNLargestDistinct, Bool.and_eq_true, decide_eq_true_eq] at h
    obtain ⟨hmem, hcnt⟩ := h
    apply List.elem_iff.mpr
    rw [determine_last_X_months_from_dataset]
    apply htake.mpr
    exact ⟨(hmemT y).mpr (List.elem_iff.mp hmem), by rw [hlen]; exact hcnt⟩

/-- C2: for n in the four last_n_months selectors, the window keeps exactly
the rows whose year_month is among the n largest distinct year_month values
of the full input under descending lexicographic order, and with fewer than
n distinct months every row is kept. -/
theorem C2_lastN_window (df : List MartRow) (n : Nat) (period : String)
    (h : (period, n) ∈ ([("last_1_months", 1), ("last_3_months", 3), ("last_6_months", 6),
      ("last_12_months", 12)] : List (String × Nat))) :
    subset_data_by_period df period =
      .ok (df.filter (fun r => amongNLargestDistinct df n r.year_month)) ∧
    ((dedupFirst (df.map (·.year_month))).length < n →
      subset_data_by_period df period = .ok df) := by
  have hfilter : ∀ m : Nat,
      df.filter (fun r => (determine_last_X_months_from_dataset df m).contains r.year_month) =
      df.filter (fun r => amongNLargestDistinct df m r.year_month) :=
    fun m => List.filter_congr (fun r _ => contains_determine_eq_among df m r.year_month)
  have hall : ∀ m : Nat, (dedupFirst (df.map (·.year_month))).length < m →
      df.filter (fun r => (determine_last_X_months_from_dataset df m).contains r.year_month) = df := by
    intro m hlt
    apply List.filter_eq_self.mpr
    intro r hr
    have hperm : ((dedupFirst (df.map (·.year_month))).mergeSort (fun a b => strLe b a)).Perm
        (dedupFirst (df.map (·.year_month))) := List.mergeSort_perm _ _
    have htakeall : ((dedupFirst (df.map (·.year_month))).mergeSort
        (fun a b => strLe b a)).take m =
        (dedupFirst (df.map (·.year_month))).mergeSort (fun a b => strLe b a) :=
      List.take_of_length_le (by rw [hperm.length_eq]; omega)
    rw [determine_last_X_months_from_dataset, htakeall]
    apply List.elem_iff.mpr
    rw [hperm.mem_iff, mem_dedupFirst]
    exact List.mem_map_of_mem _ hr
  simp only [List.mem_cons, Prod.mk.injEq, List.not_mem_nil, or_false] at h
  rcases h with ⟨rfl, rfl⟩ | ⟨rfl, rfl⟩ | ⟨rfl, rfl⟩ | ⟨rfl, rfl⟩ <;>
    refine ⟨?_, fun hlt => ?_⟩ <;>
    simp only [subset_data_by_period, String.reduceEq, if_false, if_true, reduceIte] <;>
    first
      | rw [hall _ hlt]
      | rw [hfilter]

/-- Witness for C2: a two-month dataset windowed to its most recent month,
and a two-month dataset for which a three-month window keeps everything. -/
theorem C2_witness :
    subset_data_by_period spendExample "last_1_months" =
      .ok (spendExample.filter (fun r => amongNLargestDistinct spendExample 1 r.year_month)) ∧
    (dedupFirst (savingsExample.map (·.year_month))).length < 3 ∧
    subset_data_by_period savingsExample "last_3_months" = .ok savingsExample := by
  have h1 := C2_lastN_window spendExample 1 "last_1_months" (by simp)
  have h2 := C2_lastN_window savingsExample 3 "last_3_months" (by simp)
  exact ⟨h1.1, by decide, h2.2 (by decide)⟩

/-! ## Deduplication commutes with filtering and mapping -/

/-- Deduplication commutes with filtering, for accumulators that agree on
the elements the filter keeps. -/
theorem dedupFirstAux_filter {α : Type} [DecidableEq α] (p : α → Bool) :
    ∀ (l seen seen' : List α), (∀ a, p a = true → (a ∈ seen ↔ a ∈ seen')) →
    dedupFirstAux seen (l.filter p) = (dedupFirstAux seen' l).filter p := by
  intro l
  induction l with
  | nil => intro seen seen' _; simp [dedupFirstAux]
  | cons a t ih =>
    intro seen seen' h
    by_cases hpa : p a = true
    · rw [List.filter_cons_of_pos hpa]
      simp only [dedupFirstAux]
      by_cases ha : a ∈ seen
      · rw [if_pos ha, if_pos ((h a hpa).mp ha)]
        exact ih seen seen' h
      · have ha' : a ∉ seen' := fun hx => ha ((h a hpa).mpr hx)
        rw [if_neg ha, if_neg ha', List.filter_cons_of_pos hpa]
        refine congrArg (a :: ·) (ih (a :: seen) (a :: seen') ?_)
        intro b hb
        rw [List.mem_cons, List.mem_cons, h b hb]
    · rw [List.filter_cons_of_neg hpa]
      simp only [dedupFirstAux]
      by_cases ha' : a ∈ seen'
      · rw [if_pos ha']
        exact ih seen seen' h
      · rw [if_neg ha', List.filter_cons_of_neg hpa]
        refine ih seen (a :: seen') ?_
        intro b hb
        rw [List.mem_cons]
        constructor
        · exact fun hx => Or.inr ((h b hb).mp hx)
        · rintro (rfl | hx)
          · exact absurd hb hpa
          · exact (h b hb).mpr hx

/-- Deduplication of a filtered list. -/
theorem dedupFirst_filter {α : Type} [DecidableEq α] (p : α → Bool) (l : List α) :
    dedupFirst (l.filter p) = (dedupFirst l).filter p :=
  dedupFirstAux_filter p l [] [] (fun _ _ => Iff.rfl)

/-- Deduplication absorbs an inner deduplication under a map, for
accumulators whose images agree. -/
theorem dedupFirstAux_map_dedup {α β : Type} [DecidableEq α] [DecidableEq β] (f : α → β) :
    ∀ (l seenL : List α) (seenF : List β), (∀ a ∈ seenL, f a ∈ seenF) →
    dedupFirstAux seenF ((dedupFirstAux seenL l).map f) = dedupFirstAux seenF (l.map f) := by
  intro l
  induction l with
  | nil => intro seenL seenF _; simp [dedupFirstAux]
  | cons a t ih =>
    intro seenL seenF h
    by_cases ha : a ∈ seenL
    · have hI : dedupFirstAux seenL (a :: t) = dedupFirstAux seenL t := by
        simp [dedupFirstAux, ha]
      have hR : dedupFirstAux seenF ((a :: t).map f) = dedupFirstAux seenF (t.map f) := by
        simp [List.map_cons, dedupFirstAux, h a ha]
      rw [hI, ih seenL seenF h, hR]
    · have hI : dedupFirstAux seenL (a :: t) = a :: dedupFirstAux (a :: seenL) t := by
        simp [dedupFirstAux, ha]
      rw [hI, List.map_cons, List.map_cons]
      by_cases hfa : f a ∈ seenF
      · simp only [dedupFirstAux, if_pos hfa]
        refine ih (a :: seenL) seenF ?_
        intro b hb
        rcases List.mem_cons.mp hb with rfl | hb2
        · exact hfa
        · exact h b hb2
      · simp only [dedupFirstAux, if_neg hfa]
        refine congrArg (f a :: ·) (ih (a :: seenL) (f a :: seenF) ?_)
        intro b hb
        rcases List.mem_cons.mp hb with rfl | hb2
        · exact List.mem_cons_self _ _
        · exact List.mem_cons_of_mem _ (h b hb2)

/-- Deduplication after a map of a deduplication. -/
theorem dedupFirst_map_dedupFirst {α β : Type} [DecidableEq α] [DecidableEq β]
    (f : α → β) (l : List α) :
    dedupFirst ((dedupFirst l).map f) = dedupFirst (l.map f) :=
  dedupFirstAux_map_dedup f l [] [] (by simp)

/-- Deduplication after an injective map is the map of the deduplication. -/
theorem dedupFirstAux_map_inj {α β : Type} [DecidableEq α] [DecidableEq β]
    (f : α → β) (hf : Function.Injective f) :
    ∀ (l seen : List α),
    dedupFirstAux (seen.map f) (l.map f) = (dedupFirstAux seen l).map f := by
  intro l
  induction l with
  | nil => intro seen; simp [dedupFirstAux]
  | cons a t ih =>
    intro seen
    simp only [List.map_cons, dedupFirstAux]
    by_cases ha : a ∈ seen
    · rw [if_pos (List.mem_map_of_mem f ha), if_pos ha]
      exact ih seen
    · have hfa : f a ∉ seen.map f := by
        intro hx
        obtain ⟨b, hb, hfb⟩ := List.mem_map.mp hx
        exact ha (hf hfb ▸ hb)
      rw [if_neg hfa, if_neg ha, List.map_cons]
      exact congrArg (f a :: ·) (ih (a :: seen))

/-- Deduplication of an injective image. -/
theorem dedupFirst_map_inj {α β : Type} [DecidableEq α] [DecidableEq β]
    (f : α → β) (hf : Function.Injective f) (l : List α) :
    dedupFirst (l.map f) = (dedupFirst l).map f :=
  dedupFirstAux_map_inj f hf l []

/-! ## Sums over groups -/

/-- A sum splits along a filter and its complement. -/
theorem sum_map_filter_not_add {α : Type} (p : α → Bool) (g : α → ℚ) :
    ∀ l : List α,
    ((l.filter p).map g).sum + ((l.filter (fun x => !(p x))).map g).sum = (l.map g).sum := by
  intro l
  induction l with
  | nil => simp
  | cons a t ih =>
    cases h : p a with
    | false =>
      simp [List.filter_cons, h]
      linarith [ih]
    | true =>
      simp [List.filter_cons, h]
      linarith [ih]

/-- Summing the per-group sums over a duplicate-free covering key list gives
the total sum. -/
theorem sum_map_groups {α K : Type} [DecidableEq K] (key : α → K) (g : α → ℚ) :
    ∀ (keys : List K) (l : List α), keys.Nodup → (∀ x ∈ l, key x ∈ keys) →
    (keys.map (fun k => ((l.filter (fun x => decide (key x = k))).map g).sum)).sum =
      (l.map g).sum := by
  intro keys
  induction keys with
  | nil =>
    intro l _ hcov
    cases l with
    | nil => simp
    | cons a t => exact absurd (hcov a (List.mem_cons_self _ _)) (List.not_mem_nil _)
  | cons k ks ih =>
    intro l hnd hcov
    obtain ⟨hk, hks⟩ := List.pairwise_cons.mp hnd
    have hcov' : ∀ x ∈ l.filter (fun x => !(decide (key x = k))), key x ∈ ks := by
      intro x hx
      obtain ⟨hxl, hpx⟩ := List.mem_filter.mp hx
      rcases List.mem_cons.mp (hcov x hxl) with h | h
      · exfalso
        revert hpx
        simp [h]
      · exact h
    have hswap : ∀ k' ∈ ks,
        l.filter (fun x => decide (key x = k')) =
        (l.filter (fun x => !(decide (key x = k)))).filter (fun x => decide (key x = k')) := by
      intro k' hk'
      rw [List.filter_filter]
      apply List.filter_congr
      intro x _
      by_cases h : key x = k'
      · have hkk : ¬ k' = k := fun hh => hk k' hk' hh.symm
        simp [h, hkk]
      · simp [h]
    have hmapeq : ks.map (fun k' => ((l.filter (fun x => decide (key x = k'))).map g).sum) =
        ks.map (fun k' =>
          (((l.filter (fun x => !(decide (key x = k)))).filter
            (fun x => decide (key x = k'))).map g).sum) :=
      List.map_congr_left (fun k' hk' => by rw [hswap k' hk'])
    rw [List.map_cons, List.sum_cons, hmapeq, ih _ hks hcov']
    exact sum_map_filter_not_add (fun x => decide (key x = k)) g l

/-! ## Shape of the monthly groupby -/

/-- The distinct months of the monthly groupby are the distinct months of
the data. -/
theorem monthlyMetaData_distinct_months (data : List MartRow) :
    dedupFirst ((monthlyMetaData data).map (·.year_month)) =
    dedupFirst (data.map (·.year_month)) := by
  rw [monthlyMetaData, List.map_map]
  rw [dedupFirst_map_dedupFirst]
  rw [List.map_map]
  rfl

/-- The monthly groupby rows of one meta-category, explicitly: one row per
distinct month of that meta-category, keyed by (month, meta-category). -/
theorem monthlyMetaData_filter_meta (data : List MartRow) (m : String) :
    (monthlyMetaData data).filter (fun x => decide (x.meta_category = m)) =
    (dedupFirst ((data.filter (fun r => decide (r.meta_category = m))).map (·.year_month))).map
      (fun y =>
        { year_month := y, meta_category := m,
          total_spend :=
            ((data.filter (fun r => decide (r.year_month = y ∧ r.meta_category = m))).map
              (·.amount)).sum,
          monthly_transactions :=
            (data.filter (fun r => decide (r.year_month = y ∧ r.meta_category = m))).length }) := by
  rw [monthlyMetaData, List.filter_map]
  show ((dedupFirst (data.map (fun r => (r.year_month, r.meta_category)))).filter
      (fun k => decide (k.2 = m))).map _ = _
  rw [← dedupFirst_filter, List.filter_map]
  show (dedupFirst ((data.filter (fun r => decide (r.meta_category = m))).map
      (fun r => (r.year_month, r.meta_category)))).map _ = _
  have h3 : (data.filter (fun r => decide (r.meta_category = m))).map
      (fun r : MartRow => (r.year_month, r.meta_category)) =
      ((data.filter (fun r => decide (r.meta_category = m))).map (·.year_month)).map
        (fun y => (y, m)) := by
    rw [List.map_map]
    apply List.map_congr_left
    intro r hr
    obtain ⟨_, hp⟩ := List.mem_filter.mp hr
    have hm : r.meta_category = m := of_decide_eq_true hp
    simp [hm]
  rw [h3]
  rw [dedupFirst_map_inj (fun y => (y, m)) (fun a b hab => congrArg Prod.fst hab)]
  rw [List.map_map]
  rfl

/-- The per-meta-category total over the monthly groupby equals the direct
total spend of that meta-category. -/
theorem monthly_total_eq (data : List MartRow) (m : String) :
    (((monthlyMetaData data).filter (fun x => decide (x.meta_category = m))).map
      (·.total_spend)).sum = metaTotalSpend data m := by
  rw [monthlyMetaData_filter_meta, List.map_map]
  have h1 : ∀ y : String,
      data.filter (fun r => decide (r.year_month = y ∧ r.meta_category = m)) =
      (data.filter (fun r => decide (r.meta_category = m))).filter
        (fun r => decide (r.year_month = y)) := by
    intro y
    rw [List.filter_filter]
    apply List.filter_congr
    intro r _
    exact Bool.decide_and _ _
  show ((dedupFirst ((data.filter (fun r => decide (r.meta_category = m))).map
      (·.year_month))).map
    (fun y => ((data.filter (fun r => decide (r.year_month = y ∧ r.meta_category = m))).map
      (·.amount)).sum)).sum = _
  rw [List.map_congr_left (fun y _ => by rw [h1 y])]
  exact sum_map_groups (fun r : MartRow => r.year_month) (fun r => r.amount) _ _
    (nodup_dedupFirst _) (fun x hx => (mem_dedupFirst _ _).mpr (List.mem_map_of_mem _ hx))

/-- The per-meta-category row count of the monthly groupby equals the number
of distinct months with spend in that meta-category. -/
theorem monthly_months_with_eq (data : List MartRow) (m : String) :
    ((monthlyMetaData data).filter (fun x => decide (x.meta_category = m))).length =
    metaMonthsWithSpend data m := by
  rw [monthlyMetaData_filter_meta, List.length_map]
  rfl

/-! ## Average monthly spending by meta-category -/

/-- Core form of C7: every output row of the averaging core has average
monthly spend equal to its meta-category total divided by the distinct
month count of the whole data, and the every-month flag holds exactly when
the months with spend equal that count. -/
theorem C7_core_spec (data : List MartRow) :
    ∀ r ∈ calculate_average_monthly_spending_core data,
      r.avg_monthly_spend = metaTotalSpend data r.meta_category /
        (distinctMonthCount data : ℚ) ∧
      (r.spending_occurs_every_month = true ↔
        metaMonthsWithSpend data r.meta_category = distinctMonthCount data) := by
  intro r hr
  simp only [calculate_average_monthly_spending_core] at hr
  obtain ⟨r1, hr1, rfl⟩ := List.mem_map.mp ((List.mergeSort_perm _ _).mem_iff.mp hr)
  obtain ⟨m, _, rfl⟩ := List.mem_map.mp hr1
  have hA : (dedupFirst ((monthlyMetaData data).map (·.year_month))).length =
      distinctMonthCount data := by
    rw [monthlyMetaData_distinct_months]
    rfl
  constructor
  · show (((monthlyMetaData data).filter (fun x => decide (x.meta_category = m))).map
        (·.total_spend)).sum /
        ((dedupFirst ((monthlyMetaData data).map (·.year_month))).length : ℚ) =
      metaTotalSpend data m / (distinctMonthCount data : ℚ)
    rw [monthly_total_eq, hA]
  · show decide ((dedupFirst ((monthlyMetaData data).map (·.year_month))).length =
        ((monthlyMetaData data).filter (fun x => decide (x.meta_category = m))).length) = true ↔
      metaMonthsWithSpend data m = distinctMonthCount data
    rw [decide_eq_true_eq, monthly_months_with_eq, hA]
    exact eq_comm

/-- C7: in every output row of
calculate_average_monthly_spending_by_meta_category, avg_monthly_spend is
the total spend of the meta-category in the windowed and wedding-filtered
data divided by the count of distinct year_month values present anywhere in
that data, and spending_occurs_every_month holds exactly when the count of
months with spend in the meta-category equals that distinct month count. -/
theorem C7_avg_monthly_spending (df : List MartRow) (period : String) (iw : Bool)
    (sub : List MartRow) (out : List AvgSpendRow)
    (hsub : subset_data_by_period df period = .ok sub)
    (hout : calculate_average_monthly_spending_by_meta_category df period iw = .ok out) :
    ∀ r ∈ out,
      r.avg_monthly_spend =
        metaTotalSpend (include_wedding_spending sub iw) r.meta_category /
          (distinctMonthCount (include_wedding_spending sub iw) : ℚ) ∧
      (r.spending_occurs_every_month = true ↔
        metaMonthsWithSpend (include_wedding_spending sub iw) r.meta_category =
          distinctMonthCount (include_wedding_spending sub iw)) := by
  have hout2 : out =
      calculate_average_monthly_spending_core (include_wedding_spending sub iw) := by
    rw [calculate_average_monthly_spending_by_meta_category, hsub] at hout
    simp only [Except.map] at hout
    exact (Except.ok.inj hout).symm
  rw [hout2]
  exact C7_core_spec (include_wedding_spending sub iw)

/-- Witness for C7 at the spending fixture: the GROCERIES output row has
average spend 415/4 over 2 months and spends in every month. -/
theorem C7_witness :
    grocOutRow ∈ calculate_average_monthly_spending_core spendExample ∧
    grocOutRow.avg_monthly_spend = metaTotalSpend spendExample "GROCERIES" /
      (distinctMonthCount spendExample : ℚ) ∧
    (grocOutRow.spending_occurs_every_month = true ↔
      metaMonthsWithSpend spendExample "GROCERIES" = distinctMonthCount spendExample) := by
  have hpairs : dedupFirst (spendExample.map (fun r => (r.year_month, r.meta_category))) =
      [("2024-01", "GROCERIES"), ("2024-02", "GROCERIES"), ("2024-02", "UTILITIES")] := by
    decide
  have hmonthly : monthlyMetaData spendExample =
      [{ year_month := "2024-01", meta_category := "GROCERIES", total_spend := 115/2,
         monthly_transactions := 2 },
       { year_month := "2024-02", meta_category := "GROCERIES", total_spend := 150,
         monthly_transactions := 1 },
       { year_month := "2024-02", meta_category := "UTILITIES", total_spend := 100,
         monthly_transactions := 1 }] := by
    rw [monthlyMetaData, hpairs]
    simp [spendExample, List.filter_cons]
    norm_num
  have hmetas : dedupFirst ((monthlyMetaData spendExample).map (·.meta_category)) =
      ["GROCERIES", "UTILITIES"] := by
    rw [hmonthly]
    decide
  have hnm : (dedupFirst ((monthlyMetaData spendExample).map (·.year_month))).length = 2 := by
    rw [hmonthly]
    decide
  have hg1 : avgSpendRowFor (monthlyMetaData spendExample) 2 "GROCERIES" =
      { meta_category := "GROCERIES", number_of_months_in_sample := 2,
        months_with_transactions := 2, spending_occurs_every_month := true,
        avg_monthly_transactions := 3/2, total_spend := 415/2,
        avg_monthly_spend := 415/4, pct_of_avg_monthly_spend := 0 } := by
    rw [hmonthly]
    simp [avgSpendRowFor, List.filter_cons]
    norm_num
  have hg2 : avgSpendRowFor (monthlyMetaData spendExample) 2 "UTILITIES" =
      { meta_category := "UTILITIES", number_of_months_in_sample := 2,
        months_with_transactions := 1, spending_occurs_every_month := false,
        avg_monthly_transactions := 1, total_spend := 100,
        avg_monthly_spend := 50, pct_of_avg_monthly_spend := 0 } := by
    rw [hmonthly]
    simp [avgSpendRowFor, List.filter_cons]
    norm_num
  have hmem : grocOutRow ∈ calculate_average_monthly_spending_core spendExample := by
    simp only [calculate_average_monthly_spending_core]
    apply (List.mergeSort_perm _ _).mem_iff.mpr
    rw [hmetas, hnm]
    simp only [List.map_cons, List.map_nil, hg1, hg2, List.sum_cons, List.sum_nil]
    have hpct : pctAssign (415/4 + (50 + 0))
        { meta_category := "GROCERIES", number_of_months_in_sample := 2,
          months_with_transactions := 2, spending_occurs_every_month := true,
          avg_monthly_transactions := 3/2, total_spend := 415/2,
          avg_monthly_spend := 415/4, pct_of_avg_monthly_spend := 0 } = grocOutRow := by
      simp only [pctAssign, round4, grocOutRow]
      norm_num [round_eq]
    rw [hpct]
    exact List.mem_cons_self _ _
  have h := C7_avg_monthly_spending spendExample "full_history" true spendExample
    (calculate_average_monthly_spending_core spendExample) (by rfl) (by rfl)
  exact ⟨hmem, (h grocOutRow hmem).1, (h grocOutRow hmem).2⟩

/-! ## Normalizer idempotence -/

/-- Code point of Char.ofNat for small values. -/
theorem char_toNat_ofNat_le (n : Nat) (h2 : n ≤ 90) : (Char.ofNat n).toNat = n := by
  have hv : n.isValidChar := Or.inl (by omega)
  simp [Char.ofNat, hv, Char.ofNatAux, Char.toNat, UInt32.toNat, BitVec.toNat_ofNatLt]

/-- Uppercasing is idempotent on characters. -/
theorem toUpper_toUpper (c : Char) : c.toUpper.toUpper = c.toUpper := by
  simp only [Char.toUpper]
  by_cases h : c.toNat ≥ 97 ∧ c.toNat ≤ 122
  · have h32 : (Char.ofNat (c.toNat - 32)).toNat = c.toNat - 32 :=
      char_toNat_ofNat_le _ (by omega)
    rw [if_pos h, h32, if_neg (by omega)]
  · rw [if_neg h, if_neg h]

/-- Whitespace characters have small code points. -/
theorem toNat_le_of_isWs (c : Char) (h : isWs c = true) : c.toNat ≤ 32 := by
  simp only [isWs, Bool.or_eq_true, decide_eq_true_eq] at h
  rcases h with ((((h | h) | h) | h) | h) | h <;> subst h <;> decide

/-- Characters with larger code points are not whitespace. -/
theorem isWs_false_of_toNat (c : Char) (h1 : 65 ≤ c.toNat) : isWs c = false := by
  cases hw : isWs c with
  | false => rfl
  | true => exact absurd (toNat_le_of_isWs c hw) (by omega)

/-- Uppercasing does not change whether a character is whitespace. -/
theorem isWs_toUpper (c : Char) : isWs c.toUpper = isWs c := by
  simp only [Char.toUpper]
  by_cases h : c.toNat ≥ 97 ∧ c.toNat ≤ 122
  · rw [if_pos h, isWs_false_of_toNat c (by omega),
      isWs_false_of_toNat _ (by rw [char_toNat_ofNat_le _ (by omega)]; omega)]
  · rw [if_neg h]

/-- Every character of the collapsed list is a space or came from the
input. -/
theorem mem_collapseWs (l : List Char) : ∀ c ∈ collapseWs l, c = ' ' ∨ c ∈ l := by
  intro c
  induction l with
  | nil => simp [collapseWs]
  | cons a t ih =>
    cases t with
    | nil =>
      simp only [collapseWs]
      split
      · intro h
        rcases List.mem_singleton.mp h with rfl
        exact Or.inl rfl
      · intro h
        rcases List.mem_singleton.mp h with rfl
        exact Or.inr (List.mem_cons_self _ _)
    | cons b t2 =>
      simp only [collapseWs]
      split
      · intro h
        rcases ih h with h2 | h2
        · exact Or.inl h2
        · exact Or.inr (List.mem_cons_of_mem _ h2)
      · intro h
        rcases List.mem_cons.mp h with rfl | h2
        · by_cases ha : isWs a = true
          · rw [if_pos ha]
            exact Or.inl rfl
          · rw [if_neg ha]
            exact Or.inr (List.mem_cons_self _ _)
        · rcases ih h2 with h3 | h3
          · exact Or.inl h3
          · exact Or.inr (List.mem_cons_of_mem _ h3)

/-- Every whitespace character of the collapsed list is a space. -/
theorem ws_collapseWs (l : List Char) : ∀ c ∈ collapseWs l, isWs c = true → c = ' ' := by
  intro c
  induction l with
  | nil => simp [collapseWs]
  | cons a t ih =>
    cases t with
    | nil =>
      simp only [collapseWs]
      by_cases ha : isWs a = true
      · rw [if_pos ha]
        intro h _
        exact List.mem_singleton.mp h
      · rw [if_neg ha]
        intro h hw
        rcases List.mem_singleton.mp h with rfl
        exact absurd hw (by simp [ha])
    | cons b t2 =>
      simp only [collapseWs]
      split
      · exact ih
      · intro h hw
        rcases List.mem_cons.mp h with rfl | h2
        · by_cases ha : isWs a = true
          · exact if_pos ha
          · rw [if_neg ha] at hw ⊢
            exact absurd hw (by simp [ha])
        · exact ih h2 hw

/-- The collapsed list of a non-whitespace head starts with that head. -/
theorem collapseWs_head_not_ws (b : Char) (t : List Char) (hb : isWs b = false) :
    (collapseWs (b :: t)).head? = some b := by
  cases t with
  | nil => simp [collapseWs, hb]
  | cons c t2 => simp [collapseWs, hb]

/-- The collapsed list never has two adjacent whitespace characters. -/
theorem chain'_collapseWs (l : List Char) :
    (collapseWs l).Chain' (fun a b => ¬(isWs a = true ∧ isWs b = true)) := by
  induction l with
  | nil => simp [collapseWs]
  | cons a t ih =>
    cases t with
    | nil =>
      simp only [collapseWs]
      split
      · exact List.chain'_singleton _
      · exact List.chain'_singleton _
    | cons b t2 =>
      simp only [collapseWs]
      split
      · exact ih
      · rename_i hcond
        apply List.chain'_cons'.mpr
        refine ⟨?_, ih⟩
        intro y hy
        by_cases ha : isWs a = true
        · have hb : isWs b = false := by
            cases hwb : isWs b
            · rfl
            · exact absurd (by rw [ha, hwb]; rfl) hcond
          rw [collapseWs_head_not_ws b t2 hb] at hy
          have hyb : y = b := by
            cases hy
            rfl
          rw [if_pos ha, hyb]
          intro hcontra
          rw [hb] at hcontra
          exact Bool.false_ne_true hcontra.2
        · rw [if_neg ha]
          intro hcontra
          exact ha hcontra.1

/-- Characters of the stripped list come from the input. -/
theorem mem_stripWs (l : List Char) (c : Char) : c ∈ stripWs l → c ∈ l := by
  intro h
  unfold stripWs at h
  rw [List.mem_reverse] at h
  have h2 := (List.dropWhile_suffix isWs).sublist.subset h
  rw [List.mem_reverse] at h2
  exact (List.dropWhile_suffix isWs).sublist.subset h2

/-- Dropping a satisfied front leaves a head that fails the test. -/
theorem dropWhile_head_not (p : Char → Bool) (l : List Char) :
    ∀ c, (l.dropWhile p).head? = some c → p c = false := by
  induction l with
  | nil => intro c h; simp [List.dropWhile] at h
  | cons a t ih =>
    intro c h
    rw [List.dropWhile_cons] at h
    by_cases hpa : p a = true
    · rw [if_pos hpa] at h
      exact ih c h
    · rw [if_neg hpa] at h
      cases h
      cases hpw : p a
      · rfl
      · exact absurd hpw hpa

/-- The stripped list does not start with whitespace. -/
theorem head_stripWs (l : List Char) :
    ∀ c, (stripWs l).head? = some c → isWs c = false := by
  intro c h
  unfold stripWs at h
  have hpre : ((l.dropWhile isWs).reverse.dropWhile isWs).reverse <+: l.dropWhile isWs := by
    exact List.rdropWhile_prefix isWs (l.dropWhile isWs)
  obtain ⟨t, ht⟩ := hpre
  apply dropWhile_head_not isWs l c
  cases hcase : ((l.dropWhile isWs).reverse.dropWhile isWs).reverse with
  | nil => rw [hcase] at h; simp at h
  | cons x xs =>
    rw [hcase] at h ht
    cases h
    rw [← ht]
    rfl

/-- The stripped list does not end with whitespace. -/
theorem last_stripWs (l : List Char) :
    ∀ c, (stripWs l).getLast? = some c → isWs c = false := by
  intro c h
  unfold stripWs at h
  rw [List.getLast?_reverse] at h
  exact dropWhile_head_not isWs (l.dropWhile isWs).reverse c h

/-- The stripped list has no two adjacent whitespace characters when the
input has none. -/
theorem chain'_stripWs (l : List Char)
    (h : l.Chain' (fun a b => ¬(isWs a = true ∧ isWs b = true))) :
    (stripWs l).Chain' (fun a b => ¬(isWs a = true ∧ isWs b = true)) := by
  have h1 := h.suffix (List.dropWhile_suffix isWs)
  show (List.rdropWhile isWs (l.dropWhile isWs)).Chain' _
  exact h1.prefix (List.rdropWhile_prefix isWs (l.dropWhile isWs))

/-- Dropping from a list whose head fails the test does nothing. -/
theorem dropWhile_eq_self_of_head (p : Char → Bool) (l : List Char)
    (h : ∀ c, l.head? = some c → p c = false) : l.dropWhile p = l := by
  cases l with
  | nil => rfl
  | cons a t =>
    rw [List.dropWhile_cons, if_neg (by rw [h a rfl]; exact Bool.false_ne_true)]

/-- Stripping a list with no leading and no trailing whitespace does
nothing. -/
theorem stripWs_eq_self (l : List Char)
    (h1 : ∀ c, l.head? = some c → isWs c = false)
    (h2 : ∀ c, l.getLast? = some c → isWs c = false) : stripWs l = l := by
  unfold stripWs
  rw [dropWhile_eq_self_of_head isWs l h1]
  rw [dropWhile_eq_self_of_head isWs l.reverse (fun c hc => h2 c (by rwa [List.head?_reverse] at hc))]
  exact List.reverse_reverse l

/-- Collapsing a list with no adjacent whitespace and only space as
whitespace does nothing. -/
theorem collapseWs_eq_self (l : List Char)
    (hchain : l.Chain' (fun a b => ¬(isWs a = true ∧ isWs b = true)))
    (hsp : ∀ c ∈ l, isWs c = true → c = ' ') : collapseWs l = l := by
  induction l with
  | nil => rfl
  | cons a t ih =>
    cases t with
    | nil =>
      simp only [collapseWs]
      by_cases ha : isWs a = true
      · rw [if_pos ha, hsp a (List.mem_cons_self _ _) ha]
      · rw [if_neg ha]
    | cons b t2 =>
      simp only [collapseWs]
      obtain ⟨hab, hrest⟩ := List.chain'_cons.mp hchain
      have hcond : (isWs a && isWs b) = false := by
        cases hwa : isWs a
        · rfl
        · cases hwb : isWs b
          · simp
          · exact absurd ⟨hwa, hwb⟩ hab
      rw [if_neg (by rw [hcond]; exact Bool.false_ne_true)]
      have hhead : (if isWs a then ' ' else a) = a := by
        by_cases ha : isWs a = true
        · rw [if_pos ha, hsp a (List.mem_cons_self _ _) ha]
        · rw [if_neg ha]
      rw [hhead, ih hrest (fun c hc h => hsp c (List.mem_cons_of_mem _ hc) h)]

/-- Mapping uppercase over a list of uppercase-fixed characters does
nothing. -/
theorem map_toUpper_fixed (l : List Char) (h : ∀ c ∈ l, c.toUpper = c) :
    l.map Char.toUpper = l := by
  rw [List.map_congr_left h]
  exact List.map_id l

/-- Every character of the normalized list is fixed by uppercasing. -/
theorem normalizeChars_upper_fixed (l : List Char) :
    ∀ c ∈ normalizeChars l, c.toUpper = c := by
  intro c hc
  have hc2 : c ∈ collapseWs (l.map Char.toUpper) := mem_stripWs _ _ hc
  rcases mem_collapseWs _ c hc2 with rfl | hc3
  · rfl
  · obtain ⟨d, _, rfl⟩ := List.mem_map.mp hc3
    exact toUpper_toUpper d

/-- The normalizer is idempotent on character lists. -/
theorem normalizeChars_idempotent (l : List Char) :
    normalizeChars (normalizeChars l) = normalizeChars l := by
  have h1 : (normalizeChars l).map Char.toUpper = normalizeChars l :=
    map_toUpper_fixed _ (normalizeChars_upper_fixed l)
  have h2 : collapseWs (normalizeChars l) = normalizeChars l := by
    apply collapseWs_eq_self
    · exact chain'_stripWs _ (chain'_collapseWs (l.map Char.toUpper))
    · exact fun c hc h => ws_collapseWs _ c (mem_stripWs _ _ hc) h
  have h3 : stripWs (normalizeChars l) = normalizeChars l :=
    stripWs_eq_self _ (head_stripWs _) (last_stripWs _)
  show stripWs (collapseWs ((normalizeChars l).map Char.toUpper)) = normalizeChars l
  rw [h1, h2, h3]

/-- C9: the description normalizer is idempotent: normalizing a normalized
description changes nothing. -/
theorem C9_normalize_idempotent (s : String) :
    _normalize_description (_normalize_description s) = _normalize_description s := by
  show String.mk (normalizeChars (normalizeChars s.data)) = String.mk (normalizeChars s.data)
  exact congrArg String.mk (normalizeChars_idempotent s.data)

end Finance
